import Mathlib

/-!
# Verification of the Sovereign terrain-generation pipeline

Shallow embedding of the map-generation code (biome classifier, river
generator, nation spawner, resource generator, strategic-point detector,
water-distance transform and the generation worker) together with proofs
of the specified invariants.

Conventions used throughout:
* JavaScript `number` values are modelled as rationals (`ℚ`);
* typed arrays are modelled as total functions from flat indices
  (`ℕ`, row-major `index = y * width + x`) to values;
* boolean masks (`Uint8Array` holding 0/1) are modelled as `ℕ → Bool`;
* `Math.sqrt` is an abstract parameter `rsqrt : ℚ → ℚ` where the exact
  value is irrelevant to the property under proof;
* simplex-noise samplers are abstract parameters `ℚ → ℚ → ℚ`.
-/

/-- Clamp a value to `[0, 1]` (`clamp01` in `biomes.ts` and
`TerrainGenerator.ts`). -/
def clamp01 (value : ℚ) : ℚ := min 1 (max 0 value)

/- ------------------------------------------------------------------ -/
/- Biome classifier (`src/core/terrain/biomes.ts`)                     -/
/- ------------------------------------------------------------------ -/

/-- The 26 biome identifiers, in the order of `BIOME_KEYS`. -/
inductive BiomeKey where
  | deep_ocean
  | ocean
  | shore
  | polar_desert
  | glacier
  | tundra
  | alpine
  | boreal_forest
  | taiga
  | cold_steppe
  | temperate_desert
  | steppe
  | grassland
  | woodland
  | temperate_forest
  | chaparral
  | swamp
  | desert
  | badlands
  | savanna
  | tropical_forest
  | rainforest
  | wetland
  | mangrove
  | highland
  | mountain
  deriving DecidableEq, Repr

/-- Tunable thresholds of the biome classifier (`BiomeConfig`). -/
structure BiomeConfig where
  shoreBand : ℚ
  deepOceanFactor : ℚ
  mountainElevation : ℚ
  highlandElevation : ℚ
  alpineElevation : ℚ
  tempJitter : ℚ
  humidityJitter : ℚ

/-- Polar band (`temp < 0.2`) of the `determineBiome` decision tree. -/
def biomePolar (elevation humid : ℚ) (config : BiomeConfig) : BiomeKey :=
  if humid < 25/100 then .polar_desert
  else if humid < 55/100 then .tundra
  else if humid < 8/10 then .taiga
  else if elevation > config.highlandElevation then .glacier
  else .tundra

/-- Cool band (`0.2 ≤ temp < 0.4`) of the `determineBiome` decision tree. -/
def biomeCool (humid : ℚ) : BiomeKey :=
  if humid < 2/10 then .cold_steppe
  else if humid < 45/100 then .taiga
  else if humid < 7/10 then .boreal_forest
  else .swamp

/-- Temperate band (`0.4 ≤ temp < 0.7`) of the `determineBiome` decision tree. -/
def biomeTemperate (elevation humid seaLevel : ℚ) : BiomeKey :=
  if humid < 18/100 then .temperate_desert
  else if humid < 32/100 then .steppe
  else if humid < 5/10 then .grassland
  else if humid < 68/100 then .woodland
  else if humid < 82/100 then .temperate_forest
  else if elevation < seaLevel + 5/100 then .swamp
  else .wetland

/-- Tropical band (`temp ≥ 0.7`) of the `determineBiome` decision tree. -/
def biomeTropical (humid : ℚ) : BiomeKey :=
  if humid < 18/100 then .desert
  else if humid < 3/10 then .badlands
  else if humid < 45/100 then .savanna
  else if humid < 6/10 then .chaparral
  else if humid < 78/100 then .tropical_forest
  else if humid < 9/10 then .rainforest
  else .mangrove

/-- Decision tree of `determineBiome` after the jitter has been applied to
temperature and humidity (`temp` and `humid` in the source): water and
elevation gates first, then the temperature-banded humidity trees. -/
def determineBiomeCore (elevation temp humid seaLevel : ℚ)
    (config : BiomeConfig) : BiomeKey :=
  if elevation < seaLevel then
    if elevation < seaLevel * config.deepOceanFactor then .deep_ocean else .ocean
  else if elevation < seaLevel + config.shoreBand then .shore
  else if elevation > config.mountainElevation then .mountain
  else if elevation > config.alpineElevation ∧ temp < 45/100 then .alpine
  else if elevation > config.highlandElevation then .highland
  else if temp < 2/10 then biomePolar elevation humid config
  else if temp < 4/10 then biomeCool humid
  else if temp < 7/10 then biomeTemperate elevation humid seaLevel
  else biomeTropical humid

/-- Classify a single tile into one of 26 biomes (`determineBiome`):
jitter the temperature and humidity with the per-tile variation, then run
the elevation / temperature × humidity decision tree. -/
def determineBiome (elevation temperature humidity variation seaLevel : ℚ)
    (config : BiomeConfig) : BiomeKey :=
  determineBiomeCore elevation
    (clamp01 (temperature + (variation - 1/2) * config.tempJitter))
    (clamp01 (humidity + (variation - 1/2) * config.humidityJitter))
    seaLevel config

theorem biomePolar_ne_glacier (elevation humid : ℚ) (config : BiomeConfig)
    (hhl : ¬ elevation > config.highlandElevation) :
    biomePolar elevation humid config ≠ BiomeKey.glacier := by
  unfold biomePolar
  split_ifs <;> exact fun h => BiomeKey.noConfusion h

theorem biomeCool_ne_glacier (humid : ℚ) : biomeCool humid ≠ BiomeKey.glacier := by
  unfold biomeCool
  split_ifs <;> exact fun h => BiomeKey.noConfusion h

theorem biomeTemperate_ne_glacier (elevation humid seaLevel : ℚ) :
    biomeTemperate elevation humid seaLevel ≠ BiomeKey.glacier := by
  unfold biomeTemperate
  split_ifs <;> exact fun h => BiomeKey.noConfusion h

theorem biomeTropical_ne_glacier (humid : ℚ) :
    biomeTropical humid ≠ BiomeKey.glacier := by
  unfold biomeTropical
  split_ifs <;> exact fun h => BiomeKey.noConfusion h

theorem determineBiomeCore_ne_glacier (elevation temp humid seaLevel : ℚ)
    (config : BiomeConfig) :
    determineBiomeCore elevation temp humid seaLevel config ≠ BiomeKey.glacier := by
  unfold determineBiomeCore
  split_ifs <;> first
    | exact fun h => BiomeKey.noConfusion h
    | exact biomePolar_ne_glacier _ _ _ ‹_›
    | exact biomeCool_ne_glacier _
    | exact biomeTemperate_ne_glacier _ _ _
    | exact biomeTropical_ne_glacier _

/-- **C10**: the 26-biome classifier never returns `glacier`: its glacier
leaf requires `elevation > highlandElevation` inside the polar branch, but
any tile with `elevation > highlandElevation` was already returned as
mountain, alpine or highland by the earlier elevation gates, making the
branch unreachable — for every input and every configuration. -/
theorem determineBiome_ne_glacier (elevation temperature humidity variation seaLevel : ℚ)
    (config : BiomeConfig) :
    determineBiome elevation temperature humidity variation seaLevel config ≠
      BiomeKey.glacier :=
  determineBiomeCore_ne_glacier _ _ _ _ _

/- ------------------------------------------------------------------ -/
/- River generator (`src/core/terrain/rivers.ts`)                      -/
/- ------------------------------------------------------------------ -/

/-- Orthogonal river-neighbour count exactly as `removeSpeckles` computes
it: the four flat offsets `index ± 1`, `index ± width`, with no bounds
checks (the scan only visits interior cells). -/
def speckleNeighbors (mask : ℕ → Bool) (width index : ℕ) : ℕ :=
  (if mask (index - 1) then 1 else 0) + (if mask (index + 1) then 1 else 0) +
    (if mask (index - width) then 1 else 0) + (if mask (index + width) then 1 else 0)

/-- The `toRemove` list of `RiverGenerator.removeSpeckles`: interior river
cells (`1 ≤ x < width - 1`, `1 ≤ y < height - 1`) with fewer than
`minNeighbors = 2` orthogonal river neighbours, in scan order. -/
def removeSpecklesTargets (mask : ℕ → Bool) (width height : ℕ) : List ℕ :=
  (List.range' 1 (height - 2)).flatMap fun y =>
    (List.range' 1 (width - 2)).filterMap fun x =>
      if mask (y * width + x) ∧ speckleNeighbors mask width (y * width + x) < 2 then
        some (y * width + x)
      else none

/-- `RiverGenerator.removeSpeckles`: clear the river mask and the width
array at every index collected in `toRemove`. -/
def removeSpeckles (mask : ℕ → Bool) (widthArr : ℕ → ℕ) (width height : ℕ) :
    (ℕ → Bool) × (ℕ → ℕ) :=
  let toRemove := removeSpecklesTargets mask width height
  (fun i => if i ∈ toRemove then false else mask i,
    fun i => if i ∈ toRemove then 0 else widthArr i)

/-- Bounds-aware orthogonal (4-connected) river-neighbour count of the
cell `(x, y)`, used to state the river-continuity claim. -/
def riverNeighborCount (mask : ℕ → Bool) (width height x y : ℕ) : ℕ :=
  (if 1 ≤ x ∧ mask (y * width + (x - 1)) then 1 else 0) +
    (if x + 1 < width ∧ mask (y * width + (x + 1)) then 1 else 0) +
    (if 1 ≤ y ∧ mask ((y - 1) * width + x) then 1 else 0) +
    (if y + 1 < height ∧ mask ((y + 1) * width + x) then 1 else 0)

/-- **C3, counterexample**: after `removeSpeckles` a river cell can keep
fewer than 2 orthogonal river neighbours.  On a 3×3 grid whose only river
cell sits on the border at `(0, 1)` (flat index 3), the pass — which scans
interior cells only — removes nothing, and the surviving river cell has 0
orthogonal river neighbours. -/
theorem removeSpeckles_counterexample :
    ((removeSpeckles (fun i => i == 3) (fun _ => 1) 3 3).1 3 = true) ∧
      riverNeighborCount (removeSpeckles (fun i => i == 3) (fun _ => 1) 3 3).1 3 3 0 1 = 0 := by
  decide

/-- **C3, amended**: after `removeSpeckles`, every *interior* cell still
marked as river had at least 2 orthogonal river neighbours *in the
pre-pass mask*; border cells are never examined, and a kept cell's
post-pass neighbour count may be smaller because neighbours are removed in
the same batch. -/
theorem removeSpeckles_interior_pre_neighbors (mask : ℕ → Bool) (widthArr : ℕ → ℕ)
    (width height x y : ℕ) (hx1 : 1 ≤ x) (hx2 : x + 1 < width)
    (hy1 : 1 ≤ y) (hy2 : y + 1 < height)
    (hkeep : (removeSpeckles mask widthArr width height).1 (y * width + x) = true) :
    2 ≤ speckleNeighbors mask width (y * width + x) := by
  by_contra hlt
  push_neg at hlt
  have hmask : mask (y * width + x) = true := by
    by_cases hmem : (y * width + x) ∈ removeSpecklesTargets mask width height
    · simp [removeSpeckles, hmem] at hkeep
    · simpa [removeSpeckles, hmem] using hkeep
  have hmem : (y * width + x) ∈ removeSpecklesTargets mask width height := by
    unfold removeSpecklesTargets
    refine List.mem_flatMap.mpr ⟨y, ?_, ?_⟩
    · exact List.mem_range'_1.mpr ⟨hy1, by omega⟩
    · refine List.mem_filterMap.mpr ⟨x, ?_, ?_⟩
      · exact List.mem_range'_1.mpr ⟨hx1, by omega⟩
      · simp [hmask, hlt]
  simp [removeSpeckles, hmem] at hkeep

/-- Witness for `removeSpeckles_interior_pre_neighbors`: the centre of a
3×3 river cross survives the pass and indeed had ≥ 2 pre-pass
neighbours. -/
theorem removeSpeckles_interior_pre_neighbors_witness :
    2 ≤ speckleNeighbors (fun i => decide (i = 1 ∨ i = 3 ∨ i = 4 ∨ i = 5 ∨ i = 7)) 3 4 :=
  removeSpeckles_interior_pre_neighbors
    (fun i => decide (i = 1 ∨ i = 3 ∨ i = 4 ∨ i = 5 ∨ i = 7)) (fun _ => 1) 3 3 1 1
    (by decide) (by decide) (by decide) (by decide) (by decide)

/- ------------------------------------------------------------------ -/
/- Nation spawner (`src/core/world/NationSpawner.ts`)                  -/
/- ------------------------------------------------------------------ -/

/-- Terrain configuration (`TerrainConfig` in `TerrainGenerator.ts`).
`octaves` is an integer (`ℤ`) so that the zero/negative octave counts of
the error-handling claims are representable. -/
structure TerrainConfig where
  scale : ℚ
  octaves : ℤ
  persistence : ℚ
  lacunarity : ℚ
  seaLevel : ℚ
  islandMode : Bool
  width : ℕ
  height : ℕ
  continentScale : ℚ
  continentStrength : ℚ
  oceanScale : ℚ
  oceanStrength : ℚ
  redistributionPower : Option ℚ

/-- A spawn candidate (`{ index, score }` in `findCandidates`). -/
structure Candidate where
  index : ℕ
  score : ℚ
  deriving DecidableEq, Repr

/-- `BIOME_DESIRABILITY`: biome id → desirability score, `none` when the
biome is absent from the table. -/
def BIOME_DESIRABILITY (biome : ℕ) : Option ℚ :=
  if biome = 12 then some 1
  else if biome = 13 then some (9/10)
  else if biome = 14 then some (85/100)
  else if biome = 11 then some (7/10)
  else if biome = 19 then some (65/100)
  else if biome = 7 then some (5/10)
  else if biome = 15 then some (6/10)
  else if biome = 20 then some (7/10)
  else if biome = 21 then some (55/100)
  else if biome = 22 then some (3/10)
  else if biome = 24 then some (35/100)
  else if biome = 9 then some (4/10)
  else if biome = 8 then some (35/100)
  else if biome = 10 then some (2/10)
  else if biome = 16 then some (25/100)
  else if biome = 18 then some (15/100)
  else none

/-- River bonus of `findCandidates`: 0.2 when any cell of the 7×7 block
around `(x, y)` whose flat index is in range carries the river mask
(the source checks the flat index only, exactly as embedded here). -/
def riverBonus (riverMask : ℕ → Bool) (width size x y : ℕ) : ℚ :=
  if ((List.range' 0 7).flatMap fun dy => (List.range' 0 7).map fun dx =>
        (y + dy - 3) * width + (x + dx - 3)).any
      (fun ni => ni < size && riverMask ni) then
    2/10
  else 0

/-- `findCandidates`: sample every 4th tile at least 4 tiles from the map
edge; keep land tiles whose biome has a desirability of at least 0.1 and
score them as desirability plus the river bonus. -/
def findCandidates (elevation : ℕ → ℚ) (biomeIds : ℕ → ℕ) (riverMask : ℕ → Bool)
    (terrain : TerrainConfig) : List Candidate :=
  ((List.range terrain.height).filter fun y => y % 4 = 0 ∧ 4 ≤ y ∧ y + 4 < terrain.height).flatMap
    fun y =>
      ((List.range terrain.width).filter fun x =>
          x % 4 = 0 ∧ 4 ≤ x ∧ x + 4 < terrain.width).filterMap fun x =>
        let idx := y * terrain.width + x
        if elevation idx ≤ terrain.seaLevel then none
        else
          match BIOME_DESIRABILITY (biomeIds idx) with
          | none => none
          | some desirability =>
            if desirability < 1/10 then none
            else
              some ⟨idx, desirability +
                riverBonus riverMask terrain.width (terrain.width * terrain.height) x y⟩

/-- Squared Euclidean distance between the cell coordinates
(`index % width`, `index / width`) of two flat indices, as computed inside
`pickSpawnPoints`. -/
def sqDistIdx (width a b : ℕ) : ℤ :=
  (((a % width : ℕ) : ℤ) - ((b % width : ℕ) : ℤ)) ^ 2 +
    (((a / width : ℕ) : ℤ) - ((b / width : ℕ) : ℤ)) ^ 2

/-- Fisher-Yates shuffle of `pickSpawnPoints`, driven by the rng stream
`rng 0, rng 1, …` (the source's successive `rng()` calls).  Out-of-range
swap indices — impossible for the alea rng, whose values lie in `[0, 1)` —
leave the array unchanged, mirroring a no-op swap. -/
def fisherYates (arr : Array Candidate) (rng : ℕ → ℚ) : Array Candidate :=
  (List.range (arr.size - 1)).foldl
    (fun a k =>
      let i := arr.size - 1 - k
      let j := (Int.floor (rng k * (i + 1))).toNat
      a.swap! i j)
    arr

/-- One step of the greedy selection loop of `pickSpawnPoints`. -/
def pickStep (count : ℕ) (minDist : ℚ) (width : ℕ) (selected : List ℕ)
    (cand : Candidate) : List ℕ :=
  if count ≤ selected.length then selected
  else if selected.any fun existing =>
      decide ((sqDistIdx width cand.index existing : ℚ) < minDist * minDist) then
    selected
  else selected ++ [cand.index]

/-- `pickSpawnPoints`: Fisher-Yates shuffle, stable sort by score
descending, then greedily accept candidates whose squared distance to
every already-accepted point is at least `minDist²`, until `count` points
are placed. -/
def pickSpawnPoints (candidates : List Candidate) (count : ℕ) (minDist : ℚ)
    (width : ℕ) (rng : ℕ → ℚ) : List ℕ :=
  let shuffled := (fisherYates (candidates.toArray) rng).toList
  let sorted := shuffled.mergeSort fun a b => decide (b.score ≤ a.score)
  sorted.foldl (pickStep count minDist width) []

theorem pickStep_pairwise (count : ℕ) (minDist : ℚ) (width : ℕ)
    (selected : List ℕ) (cand : Candidate)
    (h : selected.Pairwise fun a b => minDist * minDist ≤ (sqDistIdx width a b : ℚ)) :
    (pickStep count minDist width selected cand).Pairwise
      fun a b => minDist * minDist ≤ (sqDistIdx width a b : ℚ) := by
  unfold pickStep
  split_ifs with h1 h2
  · exact h
  · exact h
  · rw [List.pairwise_append]
    refine ⟨h, List.pairwise_singleton _ _, ?_⟩
    intro a ha b hb
    rw [List.mem_singleton] at hb
    subst hb
    have := List.any_eq_true.not.mp h2
    push_neg at this
    have hfar : ¬ ((sqDistIdx width cand.index a : ℚ) < minDist * minDist) := by
      simpa using this a ha
    push_neg at hfar
    have hsymm : sqDistIdx width a cand.index = sqDistIdx width cand.index a := by
      unfold sqDistIdx; ring
    rw [hsymm]
    exact hfar

theorem pickLoop_pairwise (count : ℕ) (minDist : ℚ) (width : ℕ)
    (cands : List Candidate) (selected : List ℕ)
    (h : selected.Pairwise fun a b => minDist * minDist ≤ (sqDistIdx width a b : ℚ)) :
    (cands.foldl (pickStep count minDist width) selected).Pairwise
      fun a b => minDist * minDist ≤ (sqDistIdx width a b : ℚ) := by
  induction cands generalizing selected with
  | nil => exact h
  | cons c cs ih => exact ih _ (pickStep_pairwise count minDist width selected c h)

/-- **C1**: any two distinct spawn points accepted by `pickSpawnPoints`
are at squared distance at least `minDist²` in cell coordinates — a
candidate is accepted only if its squared distance to every
already-accepted point is not below `minDist²` — and hence, for a
non-negative `minDist`, at Euclidean distance at least `minDist`. -/
theorem pickSpawnPoints_spacing (candidates : List Candidate) (count : ℕ)
    (minDist : ℚ) (width : ℕ) (rng : ℕ → ℚ) (hmd : 0 ≤ minDist) :
    ∀ p ∈ pickSpawnPoints candidates count minDist width rng,
      ∀ q ∈ pickSpawnPoints candidates count minDist width rng, p ≠ q →
        minDist * minDist ≤ (sqDistIdx width p q : ℚ) ∧
          (minDist : ℝ) ≤ Real.sqrt ((sqDistIdx width p q : ℤ) : ℝ) := by
  have hpair := pickLoop_pairwise count minDist width
    (((fisherYates (candidates.toArray) rng).toList).mergeSort
      fun a b => decide (b.score ≤ a.score)) [] (List.Pairwise.nil)
  have hsymm : Symmetric fun a b => minDist * minDist ≤ (sqDistIdx width a b : ℚ) := by
    intro a b hab
    have : sqDistIdx width b a = sqDistIdx width a b := by unfold sqDistIdx; ring
    rw [this]
    exact hab
  intro p hp q hq hne
  have hsq : minDist * minDist ≤ (sqDistIdx width p q : ℚ) :=
    List.Pairwise.forall hsymm hpair hp hq hne
  refine ⟨hsq, ?_⟩
  have h0 : (0 : ℝ) ≤ (minDist : ℝ) := by exact_mod_cast hmd
  have hsq' : ((minDist : ℝ)) ^ 2 ≤ ((sqDistIdx width p q : ℤ) : ℝ) := by
    have : ((minDist * minDist : ℚ) : ℝ) ≤ (((sqDistIdx width p q : ℚ)) : ℝ) := by
      exact_mod_cast hsq
    calc ((minDist : ℝ)) ^ 2 = ((minDist * minDist : ℚ) : ℝ) := by push_cast; ring
      _ ≤ (((sqDistIdx width p q : ℚ)) : ℝ) := this
      _ = ((sqDistIdx width p q : ℤ) : ℝ) := by push_cast; ring
  calc (minDist : ℝ) = Real.sqrt ((minDist : ℝ) ^ 2) := (Real.sqrt_sq h0).symm
    _ ≤ Real.sqrt ((sqDistIdx width p q : ℤ) : ℝ) := Real.sqrt_le_sqrt hsq'

/-- Witness for `pickSpawnPoints_spacing` at a concrete candidate list,
spacing 3 and a constant rng. -/
theorem pickSpawnPoints_spacing_witness :
    (0 : ℚ) ≤ 3 ∧ (0 : ℕ) ∈ pickSpawnPoints [⟨0, 1⟩, ⟨5, 1⟩] 2 3 10 (fun _ => 0) ∧
    (5 : ℕ) ∈ pickSpawnPoints [⟨0, 1⟩, ⟨5, 1⟩] 2 3 10 (fun _ => 0) ∧
    ((3 : ℚ) * 3 ≤ (sqDistIdx 10 0 5 : ℚ) ∧
      ((3 : ℚ) : ℝ) ≤ Real.sqrt ((sqDistIdx 10 0 5 : ℤ) : ℝ)) :=
  ⟨by norm_num, by with_unfolding_all decide, by with_unfolding_all decide,
    pickSpawnPoints_spacing [⟨0, 1⟩, ⟨5, 1⟩] 2 3 10 (fun _ => 0) (by norm_num)
      0 (by with_unfolding_all decide) 5 (by with_unfolding_all decide)
      (by decide)⟩

/-- Chebyshev distance between the cell coordinates of two flat indices,
used to state the fixed square claim radius. -/
def chebDistIdx (width a b : ℕ) : ℕ :=
  max (((a % width : ℕ) : ℤ) - ((b % width : ℕ) : ℤ)).natAbs
    (((a / width : ℕ) : ℤ) - ((b / width : ℕ) : ℤ)).natAbs

/-- The 25 offsets `(dy, dx)` of the 5×5 claim block of `claimTerritory`
(`radius = 2`), in source scan order (`dy` outer, `dx` inner). -/
def claimOffsets : List (ℤ × ℤ) :=
  (List.range' 0 5).flatMap fun dy => (List.range' 0 5).map fun dx =>
    ((dy : ℤ) - 2, (dx : ℤ) - 2)

/-- One offset step of `claimTerritory`: bounds check, then skip water,
already-claimed tiles and uninhabitable biomes
(`biome ≤ 2 || biome === 3 || biome === 4`), otherwise write the nation id
into the owner map and record the tile. -/
def claimStep (elevation : ℕ → ℚ) (biomeIds : ℕ → ℕ) (terrain : TerrainConfig)
    (nationId : ℕ) (sx sy : ℤ) (st : List ℕ × (ℕ → Option ℕ)) (o : ℤ × ℤ) :
    List ℕ × (ℕ → Option ℕ) :=
  let nx := sx + o.2
  let ny := sy + o.1
  if 0 ≤ nx ∧ 0 ≤ ny ∧ nx < (terrain.width : ℤ) ∧ ny < (terrain.height : ℤ) then
    let idx := ny.toNat * terrain.width + nx.toNat
    if elevation idx ≤ terrain.seaLevel then st
    else if (st.2 idx).isSome then st
    else if biomeIds idx ≤ 2 ∨ biomeIds idx = 3 ∨ biomeIds idx = 4 then st
    else (st.1 ++ [idx], fun i => if i = idx then some nationId else st.2 i)
  else st

/-- `claimTerritory`: claim the habitable, unclaimed land tiles of the 5×5
block around the spawn point, returning the claimed tiles and the updated
owner map.  The owner map is modelled as `ℕ → Option ℕ` (`none` = the
empty string, `some id` = the id `nation-id`). -/
def claimTerritory (spawnIdx : ℕ) (elevation : ℕ → ℚ) (biomeIds : ℕ → ℕ)
    (terrain : TerrainConfig) (ownerMap : ℕ → Option ℕ) (nationId : ℕ) :
    List ℕ × (ℕ → Option ℕ) :=
  claimOffsets.foldl
    (claimStep elevation biomeIds terrain nationId
      ((spawnIdx % terrain.width : ℕ) : ℤ) ((spawnIdx / terrain.width : ℕ) : ℤ))
    ([], ownerMap)

/-- Facts holding for every tile claimed by a pass of `claimTerritory`
around the spawn point with cell coordinates `(sx, sy)`: land, habitable
biome, and inside the in-bounds 5×5 block. -/
def ClaimProp (elevation : ℕ → ℚ) (biomeIds : ℕ → ℕ) (terrain : TerrainConfig)
    (sx sy : ℤ) (idx : ℕ) : Prop :=
  terrain.seaLevel < elevation idx ∧
    ¬(biomeIds idx ≤ 2 ∨ biomeIds idx = 3 ∨ biomeIds idx = 4) ∧
    ∃ dy dx : ℤ, |dy| ≤ 2 ∧ |dx| ≤ 2 ∧ 0 ≤ sy + dy ∧ 0 ≤ sx + dx ∧
      sx + dx < (terrain.width : ℤ) ∧ sy + dy < (terrain.height : ℤ) ∧
      idx = (sy + dy).toNat * terrain.width + (sx + dx).toNat

theorem claimStep_inv (elevation : ℕ → ℚ) (biomeIds : ℕ → ℕ) (terrain : TerrainConfig)
    (nationId : ℕ) (sx sy : ℤ) (owner0 : ℕ → Option ℕ) (o : ℤ × ℤ)
    (ho : |o.1| ≤ 2 ∧ |o.2| ≤ 2) (st : List ℕ × (ℕ → Option ℕ))
    (hmem : ∀ idx ∈ st.1, ClaimProp elevation biomeIds terrain sx sy idx ∧ owner0 idx = none)
    (hmap : ∀ i, st.2 i = if i ∈ st.1 then some nationId else owner0 i) :
    (∀ idx ∈ (claimStep elevation biomeIds terrain nationId sx sy st o).1,
        ClaimProp elevation biomeIds terrain sx sy idx ∧ owner0 idx = none) ∧
      ∀ i, (claimStep elevation biomeIds terrain nationId sx sy st o).2 i =
        if i ∈ (claimStep elevation biomeIds terrain nationId sx sy st o).1 then
          some nationId
        else owner0 i := by
  simp only [claimStep]
  split_ifs with hb h1 h2 h3
  · exact ⟨hmem, hmap⟩
  · exact ⟨hmem, hmap⟩
  · exact ⟨hmem, hmap⟩
  · -- accept branch
    set idx := (sy + o.1).toNat * terrain.width + (sx + o.2).toNat with hidx
    have hnotin : idx ∉ st.1 ∧ owner0 idx = none := by
      have := hmap idx
      by_cases hin : idx ∈ st.1
      · rw [if_pos hin] at this
        exact absurd (by simp [this]) h2
      · rw [if_neg hin] at this
        rcases h : owner0 idx with _ | v
        · exact ⟨hin, rfl⟩
        · rw [h] at this
          exact absurd (by simp [this]) h2
    constructor
    · intro j hj
      rcases List.mem_append.mp hj with hj | hj
      · exact hmem j hj
      · rw [List.mem_singleton] at hj
        subst hj
        refine ⟨⟨not_le.mp h1, h3, o.1, o.2, ho.1, ho.2, hb.2.1, hb.1, hb.2.2.1, hb.2.2.2, rfl⟩,
          hnotin.2⟩
    · intro i
      by_cases hieq : i = idx
      · subst hieq
        simp
      · simp only [if_neg hieq]
        rw [hmap i]
        by_cases hin : i ∈ st.1
        · rw [if_pos hin, if_pos (List.mem_append.mpr (Or.inl hin))]
        · rw [if_neg hin, if_neg (by simp [List.mem_append, hieq, hin])]
  · exact ⟨hmem, hmap⟩

theorem claimFold_inv (elevation : ℕ → ℚ) (biomeIds : ℕ → ℕ) (terrain : TerrainConfig)
    (nationId : ℕ) (sx sy : ℤ) (owner0 : ℕ → Option ℕ) (offs : List (ℤ × ℤ))
    (hoffs : ∀ o ∈ offs, |o.1| ≤ 2 ∧ |o.2| ≤ 2) (st : List ℕ × (ℕ → Option ℕ))
    (hmem : ∀ idx ∈ st.1, ClaimProp elevation biomeIds terrain sx sy idx ∧ owner0 idx = none)
    (hmap : ∀ i, st.2 i = if i ∈ st.1 then some nationId else owner0 i) :
    (∀ idx ∈ (offs.foldl (claimStep elevation biomeIds terrain nationId sx sy) st).1,
        ClaimProp elevation biomeIds terrain sx sy idx ∧ owner0 idx = none) ∧
      ∀ i, (offs.foldl (claimStep elevation biomeIds terrain nationId sx sy) st).2 i =
        if i ∈ (offs.foldl (claimStep elevation biomeIds terrain nationId sx sy) st).1 then
          some nationId
        else owner0 i := by
  induction offs generalizing st with
  | nil => exact ⟨hmem, hmap⟩
  | cons o os ih =>
    have hstep := claimStep_inv elevation biomeIds terrain nationId sx sy owner0 o
      (hoffs o (List.mem_cons_self o os)) st hmem hmap
    exact ih (fun o ho => hoffs o (List.mem_cons_of_mem _ ho)) _ hstep.1 hstep.2

theorem claimOffsets_small : ∀ o ∈ claimOffsets, |o.1| ≤ 2 ∧ |o.2| ≤ 2 := by
  decide

/-- Per-pass specification of `claimTerritory`: every claimed tile is
land, was unclaimed in the incoming owner map, is habitable, lies in the
5×5 block around the spawn point, and carries the nation id in the
returned owner map; tiles owned before the pass keep their owner. -/
theorem claimTerritory_spec (spawnIdx : ℕ) (elevation : ℕ → ℚ) (biomeIds : ℕ → ℕ)
    (terrain : TerrainConfig) (ownerMap : ℕ → Option ℕ) (nationId : ℕ) :
    (∀ idx ∈ (claimTerritory spawnIdx elevation biomeIds terrain ownerMap nationId).1,
        terrain.seaLevel < elevation idx ∧
          ownerMap idx = none ∧
          (claimTerritory spawnIdx elevation biomeIds terrain ownerMap nationId).2 idx =
            some nationId ∧
          chebDistIdx terrain.width idx spawnIdx ≤ 2 ∧
          ¬(biomeIds idx ≤ 2 ∨ biomeIds idx = 3 ∨ biomeIds idx = 4)) ∧
      ∀ i v, ownerMap i = some v →
        (claimTerritory spawnIdx elevation biomeIds terrain ownerMap nationId).2 i = some v := by
  have hinv := claimFold_inv elevation biomeIds terrain nationId
    ((spawnIdx % terrain.width : ℕ) : ℤ) ((spawnIdx / terrain.width : ℕ) : ℤ)
    ownerMap claimOffsets
    claimOffsets_small ([], ownerMap) (by intro idx h; exact absurd h (List.not_mem_nil idx))
    (by intro i; simp)
  rw [claimTerritory]
  refine ⟨?_, ?_⟩
  · intro idx hidx
    obtain ⟨⟨hland, hbio, dy, dx, hdy, hdx, hy0, hx0, hxw, hyh, hco⟩, hun⟩ := hinv.1 idx hidx
    refine ⟨hland, hun, ?_, ?_, hbio⟩
    · rw [hinv.2 idx, if_pos hidx]
    · -- Chebyshev radius from the offset decomposition
      have hwpos : 0 < terrain.width := by
        rcases Nat.eq_zero_or_pos terrain.width with hw | hw
        · rw [hw] at hxw hx0
          simp only [Nat.cast_zero] at hxw
          omega
        · exact hw
      have hb : ((((spawnIdx % terrain.width : ℕ) : ℤ) + dx).toNat : ℤ) =
          ((spawnIdx % terrain.width : ℕ) : ℤ) + dx := Int.toNat_of_nonneg hx0
      have ha : ((((spawnIdx / terrain.width : ℕ) : ℤ) + dy).toNat : ℤ) =
          ((spawnIdx / terrain.width : ℕ) : ℤ) + dy := Int.toNat_of_nonneg hy0
      have hblt : (((spawnIdx % terrain.width : ℕ) : ℤ) + dx).toNat < terrain.width := by
        have h := hxw
        rw [← hb] at h
        exact_mod_cast h
      have hmod : idx % terrain.width =
          (((spawnIdx % terrain.width : ℕ) : ℤ) + dx).toNat := by
        rw [hco, Nat.mul_comm, Nat.mul_add_mod, Nat.mod_eq_of_lt hblt]
      have hdiv : idx / terrain.width =
          (((spawnIdx / terrain.width : ℕ) : ℤ) + dy).toNat := by
        rw [hco, Nat.mul_comm, Nat.mul_add_div hwpos, Nat.div_eq_of_lt hblt, Nat.add_zero]
      unfold chebDistIdx
      rw [hmod, hdiv, hb, ha]
      rw [abs_le] at hdx hdy
      have h1 : ((spawnIdx % terrain.width : ℕ) : ℤ) + dx -
          ((spawnIdx % terrain.width : ℕ) : ℤ) = dx := by ring
      have h2 : ((spawnIdx / terrain.width : ℕ) : ℤ) + dy -
          ((spawnIdx / terrain.width : ℕ) : ℤ) = dy := by ring
      rw [h1, h2]
      exact Nat.max_le.mpr ⟨by omega, by omega⟩
  · intro i v hv
    rw [hinv.2 i]
    split_ifs with hin
    · exact absurd hv (by rw [(hinv.1 i hin).2]; simp)
    · exact hv

/-- A spawned nation.  Only the fields relevant to the ownership layer are
modelled; the generated name, colour, flag, government, personality and
stats of the source (all rng-driven cosmetics) do not touch the owner map
or the province set and are omitted. -/
structure Nation where
  id : ℕ
  capital : ℕ
  provinces : List ℕ

/-- One iteration of the spawn loop of `spawnNations`: the new nation id
is `nation-(nations.length)`, modelled as the number `nations.length`;
territory is claimed from the current owner map. -/
def spawnPass (elevation : ℕ → ℚ) (biomeIds : ℕ → ℕ) (terrain : TerrainConfig)
    (st : List Nation × (ℕ → Option ℕ)) (spawnIdx : ℕ) : List Nation × (ℕ → Option ℕ) :=
  let r := claimTerritory spawnIdx elevation biomeIds terrain st.2 st.1.length
  (st.1 ++ [⟨st.1.length, spawnIdx, r.1⟩], r.2)

/-- The spawn points chosen by `spawnNations` (the `spawnPoints` local). -/
def spawnPoints (elevation : ℕ → ℚ) (biomeIds : ℕ → ℕ) (riverMask : ℕ → Bool)
    (terrain : TerrainConfig) (count : ℕ) (rng : ℕ → ℚ) (minSpacing : ℚ) : List ℕ :=
  pickSpawnPoints (findCandidates elevation biomeIds riverMask terrain) count minSpacing
    terrain.width rng

/-- `spawnNations`: find candidates, pick spawn points, then claim a 5×5
territory per spawn point over an initially unclaimed owner map. -/
def spawnNations (elevation : ℕ → ℚ) (biomeIds : ℕ → ℕ) (riverMask : ℕ → Bool)
    (terrain : TerrainConfig) (count : ℕ) (rng : ℕ → ℚ) (minSpacing : ℚ) :
    List Nation × (ℕ → Option ℕ) :=
  (spawnPoints elevation biomeIds riverMask terrain count rng minSpacing).foldl
    (spawnPass elevation biomeIds terrain) ([], fun _ => none)

/-- State of the spawn loop after the first `k` passes. -/
def spawnPrefix (elevation : ℕ → ℚ) (biomeIds : ℕ → ℕ) (riverMask : ℕ → Bool)
    (terrain : TerrainConfig) (count : ℕ) (rng : ℕ → ℚ) (minSpacing : ℚ) (k : ℕ) :
    List Nation × (ℕ → Option ℕ) :=
  ((spawnPoints elevation biomeIds riverMask terrain count rng minSpacing).take k).foldl
    (spawnPass elevation biomeIds terrain) ([], fun _ => none)

theorem spawnFold_length (elevation : ℕ → ℚ) (biomeIds : ℕ → ℕ) (terrain : TerrainConfig)
    (pts : List ℕ) : ∀ st : List Nation × (ℕ → Option ℕ),
    (pts.foldl (spawnPass elevation biomeIds terrain) st).1.length =
      st.1.length + pts.length := by
  induction pts with
  | nil => intro st; simp
  | cons p ps ih =>
    intro st
    rw [List.foldl_cons, ih]
    simp [spawnPass]
    omega

theorem spawnFold_prefix_stable (elevation : ℕ → ℚ) (biomeIds : ℕ → ℕ)
    (terrain : TerrainConfig) (pts : List ℕ) :
    ∀ st : List Nation × (ℕ → Option ℕ),
      ∃ l, (pts.foldl (spawnPass elevation biomeIds terrain) st).1 = st.1 ++ l := by
  induction pts with
  | nil => exact fun st => ⟨[], by simp⟩
  | cons p ps ih =>
    intro st
    obtain ⟨l, hl⟩ := ih (spawnPass elevation biomeIds terrain st p)
    refine ⟨[⟨st.1.length, p,
      (claimTerritory p elevation biomeIds terrain st.2 st.1.length).1⟩] ++ l, ?_⟩
    rw [List.foldl_cons, hl]
    simp [spawnPass]

theorem spawnFold_preserve (elevation : ℕ → ℚ) (biomeIds : ℕ → ℕ)
    (terrain : TerrainConfig) (pts : List ℕ) :
    ∀ (st : List Nation × (ℕ → Option ℕ)) (i v : ℕ),
      st.2 i = some v →
        (pts.foldl (spawnPass elevation biomeIds terrain) st).2 i = some v := by
  induction pts with
  | nil => intro st i v h; exact h
  | cons p ps ih =>
    intro st i v h
    rw [List.foldl_cons]
    exact ih _ i v ((claimTerritory_spec p elevation biomeIds terrain st.2 st.1.length).2 i v h)

/-- **C2**: for the `k`-th nation produced by `spawnNations` and every
cell in its province set: the cell is land (elevation strictly above sea
level), it was unclaimed in the owner map immediately before that nation's
claim pass and carries the nation's id immediately after it (and in the
final owner map), it lies within the 5×5 claim block (Chebyshev radius 2)
of the nation's capital, and its biome id is none of 0–4 (deep_ocean,
ocean, shore, polar_desert, glacier). -/
theorem spawnNations_territory (elevation : ℕ → ℚ) (biomeIds : ℕ → ℕ)
    (riverMask : ℕ → Bool) (terrain : TerrainConfig) (count : ℕ) (rng : ℕ → ℚ)
    (minSpacing : ℚ) (k : ℕ)
    (hk : k < (spawnNations elevation biomeIds riverMask terrain count rng minSpacing).1.length)
    (idx : ℕ)
    (hidx : idx ∈
      ((spawnNations elevation biomeIds riverMask terrain count rng minSpacing).1.get
        ⟨k, hk⟩).provinces) :
    terrain.seaLevel < elevation idx ∧
      (spawnPrefix elevation biomeIds riverMask terrain count rng minSpacing k).2 idx = none ∧
      (spawnPrefix elevation biomeIds riverMask terrain count rng minSpacing (k + 1)).2 idx =
        some k ∧
      (spawnNations elevation biomeIds riverMask terrain count rng minSpacing).2 idx = some k ∧
      chebDistIdx terrain.width idx
        ((spawnNations elevation biomeIds riverMask terrain count rng minSpacing).1.get
          ⟨k, hk⟩).capital ≤ 2 ∧
      biomeIds idx ≠ 0 ∧ biomeIds idx ≠ 1 ∧ biomeIds idx ≠ 2 ∧
        biomeIds idx ≠ 3 ∧ biomeIds idx ≠ 4 := by
  have hlen : (spawnNations elevation biomeIds riverMask terrain count rng minSpacing).1.length =
      (spawnPoints elevation biomeIds riverMask terrain count rng minSpacing).length := by
    rw [spawnNations, spawnFold_length]
    simp
  have hkpts : k < (spawnPoints elevation biomeIds riverMask terrain count rng minSpacing).length := by
    rw [hlen] at hk
    exact hk
  have hpre_len :
      (spawnPrefix elevation biomeIds riverMask terrain count rng minSpacing k).1.length = k := by
    rw [spawnPrefix, spawnFold_length]
    simp
    omega
  have htake : ((spawnPoints elevation biomeIds riverMask terrain count rng minSpacing).take k) ++
      [(spawnPoints elevation biomeIds riverMask terrain count rng minSpacing).get ⟨k, hkpts⟩] =
      (spawnPoints elevation biomeIds riverMask terrain count rng minSpacing).take (k + 1) := by
    rw [← List.take_concat_get _ _ hkpts]
    simp [List.concat_eq_append]
  have hsucc : spawnPrefix elevation biomeIds riverMask terrain count rng minSpacing (k + 1) =
      spawnPass elevation biomeIds terrain
        (spawnPrefix elevation biomeIds riverMask terrain count rng minSpacing k)
        ((spawnPoints elevation biomeIds riverMask terrain count rng minSpacing).get ⟨k, hkpts⟩) := by
    rw [spawnPrefix, spawnPrefix, ← htake, List.foldl_append]
    simp
  have hdecomp : spawnNations elevation biomeIds riverMask terrain count rng minSpacing =
      ((spawnPoints elevation biomeIds riverMask terrain count rng minSpacing).drop (k + 1)).foldl
        (spawnPass elevation biomeIds terrain)
        (spawnPrefix elevation biomeIds riverMask terrain count rng minSpacing (k + 1)) := by
    rw [spawnNations, spawnPrefix, ← List.foldl_append, List.take_append_drop]
  -- identify the k-th nation
  set P := (spawnPoints elevation biomeIds riverMask terrain count rng minSpacing).get ⟨k, hkpts⟩
    with hP
  set before := spawnPrefix elevation biomeIds riverMask terrain count rng minSpacing k
    with hbefore
  have hafter1 :
      (spawnPrefix elevation biomeIds riverMask terrain count rng minSpacing (k + 1)).1 =
        before.1 ++ [⟨k, P, (claimTerritory P elevation biomeIds terrain before.2 k).1⟩] := by
    rw [hsucc]
    simp only [spawnPass]
    rw [hpre_len]
  obtain ⟨l, hl⟩ := spawnFold_prefix_stable elevation biomeIds terrain
    ((spawnPoints elevation biomeIds riverMask terrain count rng minSpacing).drop (k + 1))
    (spawnPrefix elevation biomeIds riverMask terrain count rng minSpacing (k + 1))
  have hnat : (spawnNations elevation biomeIds riverMask terrain count rng minSpacing).1.get
      ⟨k, hk⟩ = ⟨k, P, (claimTerritory P elevation biomeIds terrain before.2 k).1⟩ := by
    have h1 : (spawnNations elevation biomeIds riverMask terrain count rng minSpacing).1 =
        before.1 ++
          ([⟨k, P, (claimTerritory P elevation biomeIds terrain before.2 k).1⟩] ++ l) := by
      rw [hdecomp, hl, hafter1, List.append_assoc]
    rw [List.get_eq_getElem]
    rw [List.getElem_of_eq h1 hk]
    have hklen : before.1.length ≤ k := by rw [hpre_len]
    rw [List.getElem_append_right hklen]
    have hzero : k - before.1.length = 0 := by omega
    simp [hzero]
  rw [hnat] at hidx
  simp only at hidx
  have hspec := claimTerritory_spec P elevation biomeIds terrain before.2 k
  obtain ⟨hland, hun, hmark, hcheb, hbio⟩ := hspec.1 idx hidx
  have hafter2 :
      (spawnPrefix elevation biomeIds riverMask terrain count rng minSpacing (k + 1)).2 idx =
        some k := by
    rw [hsucc]
    simp only [spawnPass]
    rw [hpre_len]
    exact hmark
  refine ⟨hland, hun, hafter2, ?_, ?_, ?_, ?_, ?_, ?_, ?_⟩
  · rw [hdecomp]
    exact spawnFold_preserve elevation biomeIds terrain _ _ idx k hafter2
  · rw [hnat]
    exact hcheb
  · omega
  · omega
  · omega
  · omega
  · omega

/-- Witness for `spawnNations_territory` on a 9×9 all-grassland world: one
nation spawns at cell (4, 4) (flat index 40) and its capital cell carries
its id in the final owner map. -/
theorem spawnNations_territory_witness :
    (0 < (spawnNations (fun _ => (1 : ℚ)) (fun _ => 12) (fun _ => false)
        ⟨1, 4, 1/2, 2, 0, false, 9, 9, 1, 1/2, 1, 3/10, none⟩ 1 (fun _ => 0) 70).1.length) ∧
      (spawnNations (fun _ => (1 : ℚ)) (fun _ => 12) (fun _ => false)
        ⟨1, 4, 1/2, 2, 0, false, 9, 9, 1, 1/2, 1, 3/10, none⟩ 1 (fun _ => 0) 70).2 40 =
        some 0 :=
  ⟨by with_unfolding_all decide,
    (spawnNations_territory (fun _ => 1) (fun _ => 12) (fun _ => false)
      ⟨1, 4, 1/2, 2, 0, false, 9, 9, 1, 1/2, 1, 3/10, none⟩ 1 (fun _ => 0) 70 0
      (by with_unfolding_all decide) 40 (by with_unfolding_all decide)).2.2.2.1⟩

/- ------------------------------------------------------------------ -/
/- Resource generator (`src/core/terrain/resources.ts`)                -/
/- ------------------------------------------------------------------ -/

/-- Numeric resource type ids 0–7 (`ResourceType` in `types/resources.ts`). -/
inductive ResourceType where
  | None
  | Timber
  | Stone
  | Iron
  | Gold
  | Fertile
  | Fish
  | Fur
  deriving DecidableEq, Repr

/-- `ResourceConfig`: ore noise scale, rarity thresholds, minimum density. -/
structure ResourceConfig where
  oreScale : ℚ
  goldRarity : ℚ
  ironRarity : ℚ
  minDensity : ℚ

/-- `BIOME_RESOURCE`: biome id → primary resource (`none` = no inherent
resource, including ids outside the table). -/
def BIOME_RESOURCE (biome : ℕ) : Option ResourceType :=
  match biome with
  | 6 => some .Stone
  | 7 => some .Timber
  | 8 => some .Fur
  | 11 => some .Fertile
  | 12 => some .Fertile
  | 13 => some .Timber
  | 14 => some .Timber
  | 18 => some .Stone
  | 19 => some .Fertile
  | 20 => some .Timber
  | 21 => some .Timber
  | 22 => some .Fertile
  | 24 => some .Stone
  | 25 => some .Stone
  | _ => none

/-- Set one entry of a boolean mask to true (a `arr[j] = 1` write). -/
def setTrue (f : ℕ → Bool) (j : ℕ) : ℕ → Bool :=
  fun n => if n = j then true else f n

/-- The row-major scan order `(x, y)` of the per-tile loops. -/
def gridCells (width height : ℕ) : List (ℕ × ℕ) :=
  (List.range height).flatMap fun y => (List.range width).map fun x => (x, y)

theorem gridCells_mem (width height : ℕ) (c : ℕ × ℕ) :
    c ∈ gridCells width height ↔ c.1 < width ∧ c.2 < height := by
  rcases c with ⟨a, b⟩
  simp only [gridCells, List.mem_flatMap, List.mem_map, List.mem_range]
  constructor
  · rintro ⟨y, hy, x, hx, heq⟩
    cases heq
    exact ⟨hx, hy⟩
  · rintro ⟨ha, hb⟩
    exact ⟨b, hb, a, ha, rfl⟩

/-- A fold of mask-marking steps marks exactly the starting marks plus
everything some processed element marks. -/
theorem foldl_mark_iff {α : Type} (step : (ℕ → Bool) → α → (ℕ → Bool)) (M : α → ℕ → Prop)
    (hstep : ∀ acc c j, ((step acc c) j = true) ↔ (acc j = true ∨ M c j)) :
    ∀ (l : List α) (acc : ℕ → Bool) (j : ℕ),
      ((l.foldl step acc) j = true) ↔ (acc j = true ∨ ∃ c ∈ l, M c j) := by
  intro l
  induction l with
  | nil => intro acc j; simp
  | cons c cs ih =>
    intro acc j
    rw [List.foldl_cons, ih, hstep]
    constructor
    · rintro (⟨h | h⟩ | ⟨d, hd, hM⟩)
      · exact Or.inl h
      · exact Or.inr ⟨c, List.mem_cons_self c cs, h⟩
      · exact Or.inr ⟨d, List.mem_cons_of_mem _ hd, hM⟩
    · rintro (h | ⟨d, hd, hM⟩)
      · exact Or.inl (Or.inl h)
      · rcases List.mem_cons.mp hd with rfl | hd
        · exact Or.inl (Or.inr hM)
        · exact Or.inr ⟨d, hd, hM⟩

/-- Apply a batch of conditional mask writes `if b then arr[t] = 1`. -/
def markTargets (acc : ℕ → Bool) (l : List (Bool × ℕ)) : ℕ → Bool :=
  l.foldl (fun a p => if p.1 then setTrue a p.2 else a) acc

theorem markTargets_iff (acc : ℕ → Bool) (l : List (Bool × ℕ)) (j : ℕ) :
    ((markTargets acc l) j = true) ↔
      (acc j = true ∨ ∃ p ∈ l, p.1 = true ∧ j = p.2) := by
  refine foldl_mark_iff _ (fun p j => p.1 = true ∧ j = p.2) ?_ l acc j
  intro a p i
  rcases p with ⟨b, t⟩
  by_cases hit : i = t <;> cases b <;> simp [setTrue, hit]

/-- One cell of the shore-adjacency precomputation of `generateResources`:
water tiles mark their in-bounds land neighbours (the four sequential
conditional writes of the source). -/
def markNearWater (elevation : ℕ → ℚ) (width height : ℕ) (seaLevel : ℚ)
    (acc : ℕ → Bool) (c : ℕ × ℕ) : ℕ → Bool :=
  let x := c.1
  let y := c.2
  let i := y * width + x
  if seaLevel < elevation i then acc
  else
    markTargets acc
      [(decide (0 < x) && decide (seaLevel < elevation (i - 1)), i - 1),
        (decide (x + 1 < width) && decide (seaLevel < elevation (i + 1)), i + 1),
        (decide (0 < y) && decide (seaLevel < elevation (i - width)), i - width),
        (decide (y + 1 < height) && decide (seaLevel < elevation (i + width)), i + width)]

/-- The `nearWater` mask of `generateResources`. -/
def nearWater (elevation : ℕ → ℚ) (width height : ℕ) (seaLevel : ℚ) : ℕ → Bool :=
  (gridCells width height).foldl (markNearWater elevation width height seaLevel) fun _ => false

/-- What the water tile `c` marks: its in-bounds land neighbours. -/
def MarksNearWater (elevation : ℕ → ℚ) (width height : ℕ) (seaLevel : ℚ)
    (c : ℕ × ℕ) (j : ℕ) : Prop :=
  ¬ seaLevel < elevation (c.2 * width + c.1) ∧
    ((0 < c.1 ∧ seaLevel < elevation (c.2 * width + c.1 - 1) ∧ j = c.2 * width + c.1 - 1) ∨
      (c.1 + 1 < width ∧ seaLevel < elevation (c.2 * width + c.1 + 1) ∧
        j = c.2 * width + c.1 + 1) ∨
      (0 < c.2 ∧ seaLevel < elevation (c.2 * width + c.1 - width) ∧
        j = c.2 * width + c.1 - width) ∨
      (c.2 + 1 < height ∧ seaLevel < elevation (c.2 * width + c.1 + width) ∧
        j = c.2 * width + c.1 + width))

theorem markNearWater_iff (elevation : ℕ → ℚ) (width height : ℕ) (seaLevel : ℚ)
    (acc : ℕ → Bool) (c : ℕ × ℕ) (j : ℕ) :
    ((markNearWater elevation width height seaLevel acc c) j = true) ↔
      (acc j = true ∨ MarksNearWater elevation width height seaLevel c j) := by
  simp only [markNearWater]
  split_ifs with h0
  · simp [MarksNearWater, h0]
  · rw [markTargets_iff]
    simp only [MarksNearWater, List.mem_cons, List.not_mem_nil, or_false]
    constructor
    · rintro (h | ⟨p, hp, hb, hj⟩)
      · exact Or.inl h
      · refine Or.inr ⟨h0, ?_⟩
        rcases hp with rfl | rfl | rfl | rfl
        all_goals simp only [Bool.and_eq_true, decide_eq_true_eq] at hb
        · exact Or.inl ⟨hb.1, hb.2, hj⟩
        · exact Or.inr (Or.inl ⟨hb.1, hb.2, hj⟩)
        · exact Or.inr (Or.inr (Or.inl ⟨hb.1, hb.2, hj⟩))
        · exact Or.inr (Or.inr (Or.inr ⟨hb.1, hb.2, hj⟩))
    · rintro (h | ⟨-, hcase⟩)
      · exact Or.inl h
      · refine Or.inr ?_
        rcases hcase with ⟨h1, h2, h3⟩ | ⟨h1, h2, h3⟩ | ⟨h1, h2, h3⟩ | ⟨h1, h2, h3⟩
        · exact ⟨(decide (0 < c.1) && decide (seaLevel < elevation (c.2 * width + c.1 - 1)),
            c.2 * width + c.1 - 1), Or.inl rfl, by simp [h1, h2], h3⟩
        · exact ⟨(decide (c.1 + 1 < width) &&
            decide (seaLevel < elevation (c.2 * width + c.1 + 1)),
            c.2 * width + c.1 + 1), Or.inr (Or.inl rfl), by simp [h1, h2], h3⟩
        · exact ⟨(decide (0 < c.2) && decide (seaLevel < elevation (c.2 * width + c.1 - width)),
            c.2 * width + c.1 - width), Or.inr (Or.inr (Or.inl rfl)), by simp [h1, h2], h3⟩
        · exact ⟨(decide (c.2 + 1 < height) &&
            decide (seaLevel < elevation (c.2 * width + c.1 + width)),
            c.2 * width + c.1 + width), Or.inr (Or.inr (Or.inr rfl)), by simp [h1, h2], h3⟩

theorem gridIdx_mod (w x y : ℕ) (hx : x < w) : (y * w + x) % w = x := by
  rw [Nat.mul_comm, Nat.mul_add_mod, Nat.mod_eq_of_lt hx]

theorem gridIdx_div (w x y : ℕ) (hx : x < w) : (y * w + x) / w = y := by
  have hw : 0 < w := by omega
  rw [Nat.mul_comm, Nat.mul_add_div hw, Nat.div_eq_of_lt hx, Nat.add_zero]

theorem gridIdx_inj (w x y a b : ℕ) (hx : x < w) (hb : b < w)
    (h : y * w + x = a * w + b) : x = b ∧ y = a := by
  constructor
  · have h1 := congrArg (fun n => n % w) h
    simpa [gridIdx_mod w x y hx, gridIdx_mod w b a hb] using h1
  · have h1 := congrArg (fun n => n / w) h
    simpa [gridIdx_div w x y hx, gridIdx_div w b a hb] using h1

theorem idx_sub_width (w a b : ℕ) (ha : 0 < a) : a * w + b - w = (a - 1) * w + b := by
  have h : a * w = (a - 1) * w + w := by
    have ha1 : a = (a - 1) + 1 := by omega
    calc a * w = ((a - 1) + 1) * w := by rw [← ha1]
      _ = (a - 1) * w + w := by ring
  omega

theorem idx_add_width (w a b : ℕ) : a * w + b + w = (a + 1) * w + b := by ring

/-- The `nearWater` mask marks exactly the land cells with a 4-adjacent
water cell. -/
theorem nearWater_iff (elevation : ℕ → ℚ) (width height : ℕ) (seaLevel : ℚ)
    (x y : ℕ) (hx : x < width) (hy : y < height) :
    (nearWater elevation width height seaLevel (y * width + x) = true) ↔
      (seaLevel < elevation (y * width + x) ∧
        ((0 < x ∧ elevation (y * width + (x - 1)) ≤ seaLevel) ∨
          (x + 1 < width ∧ elevation (y * width + (x + 1)) ≤ seaLevel) ∨
          (0 < y ∧ elevation ((y - 1) * width + x) ≤ seaLevel) ∨
          (y + 1 < height ∧ elevation ((y + 1) * width + x) ≤ seaLevel))) := by
  rw [nearWater, foldl_mark_iff (markNearWater elevation width height seaLevel)
    (MarksNearWater elevation width height seaLevel)
    (markNearWater_iff elevation width height seaLevel)]
  simp only [Bool.false_eq_true, false_or]
  constructor
  · rintro ⟨c, hc, hwet, hcase⟩
    rw [gridCells_mem] at hc
    rw [not_lt] at hwet
    rcases hcase with ⟨h1, h2, h3⟩ | ⟨h1, h2, h3⟩ | ⟨h1, h2, h3⟩ | ⟨h1, h2, h3⟩
    · -- water at c marks its left neighbour: the water cell is to the right
      have h4 : c.2 * width + c.1 - 1 = c.2 * width + (c.1 - 1) := by omega
      rw [h4] at h3 h2
      obtain ⟨hxe, hye⟩ := gridIdx_inj width x y c.2 (c.1 - 1) hx (by omega) h3
      have hx1 : x + 1 = c.1 := by omega
      refine ⟨by rw [h3]; exact h2, Or.inr (Or.inl ⟨by omega, ?_⟩)⟩
      rw [hx1, hye]
      exact hwet
    · -- water at c marks its right neighbour: the water cell is to the left
      obtain ⟨hxe, hye⟩ := gridIdx_inj width x y c.2 (c.1 + 1) hx h1 h3
      refine ⟨by rw [h3]; exact h2, Or.inl ⟨by omega, ?_⟩⟩
      have hx1 : x - 1 = c.1 := by omega
      rw [hx1, hye]
      exact hwet
    · -- water at c marks the neighbour above: the water cell is below
      have h4 : c.2 * width + c.1 - width = (c.2 - 1) * width + c.1 :=
        idx_sub_width width c.2 c.1 h1
      rw [h4] at h3 h2
      obtain ⟨hxe, hye⟩ := gridIdx_inj width x y (c.2 - 1) c.1 hx hc.1 h3
      refine ⟨by rw [h3]; exact h2, Or.inr (Or.inr (Or.inr ⟨by omega, ?_⟩))⟩
      have hy1 : y + 1 = c.2 := by omega
      rw [hy1, hxe]
      exact hwet
    · -- water at c marks the neighbour below: the water cell is above
      have h4 : c.2 * width + c.1 + width = (c.2 + 1) * width + c.1 :=
        idx_add_width width c.2 c.1
      rw [h4] at h3 h2
      obtain ⟨hxe, hye⟩ := gridIdx_inj width x y (c.2 + 1) c.1 hx hc.1 h3
      refine ⟨by rw [h3]; exact h2, Or.inr (Or.inr (Or.inl ⟨by omega, ?_⟩))⟩
      have hy1 : y - 1 = c.2 := by omega
      rw [hy1, hxe]
      exact hwet
  · rintro ⟨hland, hcase⟩
    rcases hcase with ⟨h1, h2⟩ | ⟨h1, h2⟩ | ⟨h1, h2⟩ | ⟨h1, h2⟩
    · -- water to the left: it marks this cell as its right neighbour
      refine ⟨(x - 1, y), (gridCells_mem _ _ _).mpr ⟨by omega, hy⟩, by simpa using h2,
        Or.inr (Or.inl ⟨by omega, ?_, ?_⟩)⟩
      · have hq : y * width + (x - 1) + 1 = y * width + x := by omega
        rw [hq]
        exact hland
      · dsimp only
        omega
    · -- water to the right: it marks this cell as its left neighbour
      refine ⟨(x + 1, y), (gridCells_mem _ _ _).mpr ⟨h1, hy⟩, by simpa using h2,
        Or.inl ⟨by omega, ?_, ?_⟩⟩
      · have hq : y * width + (x + 1) - 1 = y * width + x := by omega
        rw [hq]
        exact hland
      · dsimp only
        omega
    · -- water above: it marks this cell as the neighbour below
      refine ⟨(x, y - 1), (gridCells_mem _ _ _).mpr ⟨hx, by omega⟩, by simpa using h2,
        Or.inr (Or.inr (Or.inr ⟨by omega, ?_, ?_⟩))⟩
      · have hq : (y - 1) * width + x + width = y * width + x := by
          rw [idx_add_width]
          congr 2
          omega
        rw [hq]
        exact hland
      · rw [idx_add_width]
        congr 1
        congr 2
        omega
    · -- water below: it marks this cell as the neighbour above
      refine ⟨(x, y + 1), (gridCells_mem _ _ _).mpr ⟨hx, h1⟩, by simpa using h2,
        Or.inr (Or.inr (Or.inl ⟨by omega, ?_, ?_⟩))⟩
      · have hq : (y + 1) * width + x - width = y * width + x := by
          rw [idx_sub_width width (y + 1) x (by omega)]
          simp
        rw [hq]
        exact hland
      · rw [idx_sub_width width (y + 1) x (by omega)]
        simp

/-- The 25 offsets `(oy, ox)` of the river-adjacency box (`-2..2` scan,
`oy` outer), as offsets from the top-left corner. -/
def offsets5x5 : List (ℕ × ℕ) :=
  (List.range' 0 5).flatMap fun oy => (List.range' 0 5).map fun ox => (oy, ox)

theorem offsets5x5_mem (o : ℕ × ℕ) : o ∈ offsets5x5 ↔ o.1 < 5 ∧ o.2 < 5 := by
  rcases o with ⟨a, b⟩
  simp only [offsets5x5, List.mem_flatMap, List.mem_map, List.mem_range'_1]
  constructor
  · rintro ⟨oy, hoy, ox, hox, heq⟩
    cases heq
    exact ⟨by omega, by omega⟩
  · rintro ⟨ha, hb⟩
    exact ⟨a, by omega, b, by omega, rfl⟩

/-- One cell of the river-adjacency precomputation of `generateResources`:
a river cell marks every in-bounds cell of the 5×5 box around it. -/
def markNearRiver (riverMask : ℕ → Bool) (width height : ℕ)
    (acc : ℕ → Bool) (c : ℕ × ℕ) : ℕ → Bool :=
  if riverMask (c.2 * width + c.1) then
    markTargets acc (offsets5x5.map fun o =>
      (decide (0 ≤ (c.1 : ℤ) + o.2 - 2) && decide (0 ≤ (c.2 : ℤ) + o.1 - 2) &&
          decide ((c.1 : ℤ) + o.2 - 2 < (width : ℤ)) &&
          decide ((c.2 : ℤ) + o.1 - 2 < (height : ℤ)),
        ((c.2 : ℤ) + o.1 - 2).toNat * width + ((c.1 : ℤ) + o.2 - 2).toNat))
  else acc

/-- The `nearRiver` mask of `generateResources` (river within 2 tiles). -/
def nearRiver (riverMask : ℕ → Bool) (width height : ℕ) : ℕ → Bool :=
  (gridCells width height).foldl (markNearRiver riverMask width height) fun _ => false

/-- What the river cell `c` marks: the in-bounds cells of its 5×5 box. -/
def MarksNearRiver (riverMask : ℕ → Bool) (width height : ℕ) (c : ℕ × ℕ) (j : ℕ) : Prop :=
  riverMask (c.2 * width + c.1) = true ∧
    ∃ o ∈ offsets5x5,
      0 ≤ (c.1 : ℤ) + o.2 - 2 ∧ 0 ≤ (c.2 : ℤ) + o.1 - 2 ∧
        (c.1 : ℤ) + o.2 - 2 < (width : ℤ) ∧ (c.2 : ℤ) + o.1 - 2 < (height : ℤ) ∧
        j = ((c.2 : ℤ) + o.1 - 2).toNat * width + ((c.1 : ℤ) + o.2 - 2).toNat

theorem markNearRiver_iff (riverMask : ℕ → Bool) (width height : ℕ)
    (acc : ℕ → Bool) (c : ℕ × ℕ) (j : ℕ) :
    ((markNearRiver riverMask width height acc c) j = true) ↔
      (acc j = true ∨ MarksNearRiver riverMask width height c j) := by
  simp only [markNearRiver]
  split_ifs with hriv
  · rw [markTargets_iff]
    simp only [List.mem_map, MarksNearRiver, hriv, true_and]
    constructor
    · rintro (h | ⟨p, ⟨o, ho, rfl⟩, hb, hj⟩)
      · exact Or.inl h
      · simp only [Bool.and_eq_true, decide_eq_true_eq] at hb
        exact Or.inr ⟨o, ho, hb.1.1.1, hb.1.1.2, hb.1.2, hb.2, hj⟩
    · rintro (h | ⟨o, ho, h1, h2, h3, h4, hj⟩)
      · exact Or.inl h
      · exact Or.inr ⟨_, ⟨o, ho, rfl⟩, by simp [h1, h2, h3, h4], hj⟩
  · simp only [MarksNearRiver]
    rw [Bool.not_eq_true] at hriv
    simp [hriv]

/-- The `nearRiver` mask marks exactly the cells with a river cell within
Chebyshev distance 2. -/
theorem nearRiver_iff (riverMask : ℕ → Bool) (width height : ℕ) (x y : ℕ)
    (hx : x < width) (hy : y < height) :
    (nearRiver riverMask width height (y * width + x) = true) ↔
      ∃ cx cy : ℕ, cx < width ∧ cy < height ∧ riverMask (cy * width + cx) = true ∧
        ((cx : ℤ) - (x : ℤ)).natAbs ≤ 2 ∧ ((cy : ℤ) - (y : ℤ)).natAbs ≤ 2 := by
  rw [nearRiver, foldl_mark_iff _ _ (markNearRiver_iff riverMask width height)]
  simp only [Bool.false_eq_true, false_or]
  constructor
  · rintro ⟨c, hc, hriv, o, ho, h1, h2, h3, h4, hj⟩
    rw [gridCells_mem] at hc
    rw [offsets5x5_mem] at ho
    obtain ⟨hxe, hye⟩ := gridIdx_inj width x y _ _ hx (by omega) hj
    exact ⟨c.1, c.2, hc.1, hc.2, hriv, by omega, by omega⟩
  · rintro ⟨cx, cy, hcx, hcy, hriv, hdx, hdy⟩
    refine ⟨(cx, cy), (gridCells_mem _ _ _).mpr ⟨hcx, hcy⟩, hriv,
      (y + 2 - cy, x + 2 - cx), (offsets5x5_mem _).mpr ⟨by omega, by omega⟩,
      ?_, ?_, ?_, ?_, ?_⟩
    all_goals dsimp only
    · omega
    · omega
    · omega
    · omega
    · have e1 : ((cx : ℤ) + ((x + 2 - cx : ℕ) : ℤ) - 2).toNat = x := by omega
      have e2 : ((cy : ℤ) + ((y + 2 - cy : ℕ) : ℤ) - 2).toNat = y := by omega
      rw [e1, e2]

theorem gridIdx_lt (w h x y : ℕ) (hx : x < w) (hy : y < h) : y * w + x < w * h := by
  calc y * w + x < y * w + w := by omega
    _ = (y + 1) * w := by ring
    _ ≤ h * w := Nat.mul_le_mul_right w (by omega)
    _ = w * h := Nat.mul_comm h w

/-- Per-cell body of the main loop of `generateResources`: skip water,
then try gold, iron, fish and the biome-default resource in that order.
Densities are stored through the `Uint8Array` wrap (`% 256`). -/
def resourceAt (elevation humidity : ℕ → ℚ) (biomeIds : ℕ → ℕ) (nw nr : ℕ → Bool)
    (width : ℕ) (seaLevel : ℚ) (oreNoise densityNoise : ℚ → ℚ → ℚ)
    (config : ResourceConfig) (x y : ℕ) : ResourceType × ℤ :=
  let i := y * width + x
  if elevation i ≤ seaLevel then (.None, 0)
  else
    let biome := biomeIds i
    let oreVal := (oreNoise ((x : ℚ) * config.oreScale) ((y : ℚ) * config.oreScale) + 1) * (1/2)
    let densVal := (densityNoise ((x : ℚ) * (1/100)) ((y : ℚ) * (1/100)) + 1) * (1/2)
    if (biome = 25 ∨ biome = 24) ∧ nr i = true ∧ oreVal > config.goldRarity then
      (.Gold, round (((oreVal - config.goldRarity) / (1 - config.goldRarity)) * 180 + 50) % 256)
    else if (biome = 25 ∨ biome = 24 ∨ biome = 18) ∧ oreVal > config.ironRarity then
      (.Iron, round (((oreVal - config.ironRarity) / (1 - config.ironRarity)) * 200 + 40) % 256)
    else if nw i = true ∧ biome ≠ 4 ∧ biome ≠ 3 then
      (.Fish, round (densVal * 150 + 60) % 256)
    else
      match BIOME_RESOURCE biome with
      | none => (.None, 0)
      | some baseRes =>
        if config.minDensity ≤ (round (densVal * 180 + 40) : ℚ) then
          if baseRes = .Fertile then
            (baseRes, round ((round (densVal * 180 + 40) : ℚ) * (1/2 + humidity i * (1/2))) % 256)
          else (baseRes, round (densVal * 180 + 40) % 256)
        else (.None, 0)

/-- `generateResources`: resource type and density layers.  The two
shore/river adjacency masks are precomputed; each tile is then classified
independently (every array slot is written at most once). -/
def generateResources (elevation humidity : ℕ → ℚ) (biomeIds : ℕ → ℕ)
    (riverMask : ℕ → Bool) (width height : ℕ) (seaLevel : ℚ)
    (oreNoise densityNoise : ℚ → ℚ → ℚ) (config : ResourceConfig) :
    (ℕ → ResourceType) × (ℕ → ℤ) :=
  (fun i =>
      if i < width * height then
        (resourceAt elevation humidity biomeIds (nearWater elevation width height seaLevel)
          (nearRiver riverMask width height) width seaLevel oreNoise densityNoise config
          (i % width) (i / width)).1
      else .None,
    fun i =>
      if i < width * height then
        (resourceAt elevation humidity biomeIds (nearWater elevation width height seaLevel)
          (nearRiver riverMask width height) width seaLevel oreNoise densityNoise config
          (i % width) (i / width)).2
      else 0)

theorem BIOME_RESOURCE_values (n : ℕ) (b : ResourceType)
    (h : BIOME_RESOURCE n = some b) :
    b = .Stone ∨ b = .Timber ∨ b = .Fur ∨ b = .Fertile := by
  unfold BIOME_RESOURCE at h
  split at h <;> first
    | exact Option.noConfusion h
    | (cases Option.some.inj h; tauto)

/-- **C5**: on land cells `generateResources` assigns the first matching
rule in the fixed priority order gold > iron > fish > biome-default and no
later rule: gold needs mountain/highland biome, a river cell within
Chebyshev distance 2 and ore noise above the gold rarity; iron needs
mountain/highland/badlands and ore noise above the iron rarity; fish needs
a 4-adjacent water cell and a biome that is neither glacier (4) nor
polar_desert (3); otherwise the biome-default resource is assigned exactly
when its density reaches the minimum-density threshold, with the
fertile-soil density scaled by local humidity.  Water cells receive no
resource. -/
theorem generateResources_spec (elevation humidity : ℕ → ℚ) (biomeIds : ℕ → ℕ)
    (riverMask : ℕ → Bool) (width height : ℕ) (seaLevel : ℚ)
    (oreNoise densityNoise : ℚ → ℚ → ℚ) (config : ResourceConfig)
    (x y : ℕ) (hx : x < width) (hy : y < height) :
    (elevation (y * width + x) ≤ seaLevel →
      (generateResources elevation humidity biomeIds riverMask width height seaLevel
          oreNoise densityNoise config).1 (y * width + x) = .None ∧
        (generateResources elevation humidity biomeIds riverMask width height seaLevel
          oreNoise densityNoise config).2 (y * width + x) = 0) ∧
    (seaLevel < elevation (y * width + x) →
      (((biomeIds (y * width + x) = 25 ∨ biomeIds (y * width + x) = 24) ∧
          (∃ cx cy : ℕ, cx < width ∧ cy < height ∧ riverMask (cy * width + cx) = true ∧
            ((cx : ℤ) - (x : ℤ)).natAbs ≤ 2 ∧ ((cy : ℤ) - (y : ℤ)).natAbs ≤ 2) ∧
          (oreNoise ((x : ℚ) * config.oreScale) ((y : ℚ) * config.oreScale) + 1) * (1/2) >
            config.goldRarity ↔
        (generateResources elevation humidity biomeIds riverMask width height seaLevel
          oreNoise densityNoise config).1 (y * width + x) = .Gold) ∧
      (((generateResources elevation humidity biomeIds riverMask width height seaLevel
            oreNoise densityNoise config).1 (y * width + x) ≠ .Gold) →
        (((biomeIds (y * width + x) = 25 ∨ biomeIds (y * width + x) = 24 ∨
            biomeIds (y * width + x) = 18) ∧
            (oreNoise ((x : ℚ) * config.oreScale) ((y : ℚ) * config.oreScale) + 1) * (1/2) >
              config.ironRarity) ↔
          (generateResources elevation humidity biomeIds riverMask width height seaLevel
            oreNoise densityNoise config).1 (y * width + x) = .Iron)) ∧
      (((generateResources elevation humidity biomeIds riverMask width height seaLevel
            oreNoise densityNoise config).1 (y * width + x) ≠ .Gold ∧
          (generateResources elevation humidity biomeIds riverMask width height seaLevel
            oreNoise densityNoise config).1 (y * width + x) ≠ .Iron) →
        ((((0 < x ∧ elevation (y * width + (x - 1)) ≤ seaLevel) ∨
            (x + 1 < width ∧ elevation (y * width + (x + 1)) ≤ seaLevel) ∨
            (0 < y ∧ elevation ((y - 1) * width + x) ≤ seaLevel) ∨
            (y + 1 < height ∧ elevation ((y + 1) * width + x) ≤ seaLevel)) ∧
            biomeIds (y * width + x) ≠ 4 ∧ biomeIds (y * width + x) ≠ 3) ↔
          (generateResources elevation humidity biomeIds riverMask width height seaLevel
            oreNoise densityNoise config).1 (y * width + x) = .Fish)) ∧
      (((generateResources elevation humidity biomeIds riverMask width height seaLevel
            oreNoise densityNoise config).1 (y * width + x) ≠ .Gold ∧
          (generateResources elevation humidity biomeIds riverMask width height seaLevel
            oreNoise densityNoise config).1 (y * width + x) ≠ .Iron ∧
          (generateResources elevation humidity biomeIds riverMask width height seaLevel
            oreNoise densityNoise config).1 (y * width + x) ≠ .Fish) →
        ((BIOME_RESOURCE (biomeIds (y * width + x)) = none →
          (generateResources elevation humidity biomeIds riverMask width height seaLevel
              oreNoise densityNoise config).1 (y * width + x) = .None ∧
            (generateResources elevation humidity biomeIds riverMask width height seaLevel
              oreNoise densityNoise config).2 (y * width + x) = 0) ∧
        ∀ b, BIOME_RESOURCE (biomeIds (y * width + x)) = some b →
          ((config.minDensity ≤
              ((round ((densityNoise ((x : ℚ) * (1/100)) ((y : ℚ) * (1/100)) + 1) * (1/2) *
                180 + 40) : ℤ) : ℚ) →
            (generateResources elevation humidity biomeIds riverMask width height seaLevel
                oreNoise densityNoise config).1 (y * width + x) = b ∧
              (b = .Fertile →
                (generateResources elevation humidity biomeIds riverMask width height seaLevel
                  oreNoise densityNoise config).2 (y * width + x) =
                  round (((round ((densityNoise ((x : ℚ) * (1/100)) ((y : ℚ) * (1/100)) + 1) *
                    (1/2) * 180 + 40) : ℤ) : ℚ) *
                    (1/2 + humidity (y * width + x) * (1/2))) % 256) ∧
              (b ≠ .Fertile →
                (generateResources elevation humidity biomeIds riverMask width height seaLevel
                  oreNoise densityNoise config).2 (y * width + x) =
                  round ((densityNoise ((x : ℚ) * (1/100)) ((y : ℚ) * (1/100)) + 1) * (1/2) *
                    180 + 40) % 256)) ∧
          (((round ((densityNoise ((x : ℚ) * (1/100)) ((y : ℚ) * (1/100)) + 1) * (1/2) *
              180 + 40) : ℤ) : ℚ) < config.minDensity →
            (generateResources elevation humidity biomeIds riverMask width height seaLevel
                oreNoise densityNoise config).1 (y * width + x) = .None ∧
              (generateResources elevation humidity biomeIds riverMask width height seaLevel
                oreNoise densityNoise config).2 (y * width + x) = 0)))))) := by
  have hi : y * width + x < width * height := gridIdx_lt width height x y hx hy
  have hmod := gridIdx_mod width x y hx
  have hdiv := gridIdx_div width x y hx
  have hfst : (generateResources elevation humidity biomeIds riverMask width height seaLevel
      oreNoise densityNoise config).1 (y * width + x) =
      (resourceAt elevation humidity biomeIds (nearWater elevation width height seaLevel)
        (nearRiver riverMask width height) width seaLevel oreNoise densityNoise config x y).1 := by
    simp only [generateResources]
    rw [if_pos hi, hmod, hdiv]
  have hsnd : (generateResources elevation humidity biomeIds riverMask width height seaLevel
      oreNoise densityNoise config).2 (y * width + x) =
      (resourceAt elevation humidity biomeIds (nearWater elevation width height seaLevel)
        (nearRiver riverMask width height) width seaLevel oreNoise densityNoise config x y).2 := by
    simp only [generateResources]
    rw [if_pos hi, hmod, hdiv]
  rw [hfst, hsnd]
  constructor
  · intro hwater
    simp only [resourceAt]
    rw [if_pos hwater]
    exact ⟨rfl, rfl⟩
  · intro hland
    have hnr := nearRiver_iff riverMask width height x y hx hy
    have hnw := nearWater_iff elevation width height seaLevel x y hx hy
    simp only [resourceAt]
    rw [if_neg (not_le.mpr hland)]
    set G := ((biomeIds (y * width + x) = 25 ∨ biomeIds (y * width + x) = 24) ∧
      nearRiver riverMask width height (y * width + x) = true ∧
      (oreNoise ((x : ℚ) * config.oreScale) ((y : ℚ) * config.oreScale) + 1) * (1/2) >
        config.goldRarity) with hGdef
    by_cases hG : G
    · rw [if_pos hG]
      refine ⟨?_, ?_, ?_, ?_⟩
      · refine ⟨fun _ => rfl, fun _ => ?_⟩
        rw [hGdef] at hG
        exact ⟨hG.1, hnr.mp hG.2.1, hG.2.2⟩
      · intro hne; exact absurd rfl hne
      · rintro ⟨hne, -⟩; exact absurd rfl hne
      · rintro ⟨hne, -, -⟩; exact absurd rfl hne
    · rw [if_neg hG]
      have hGiff : ¬ ((biomeIds (y * width + x) = 25 ∨ biomeIds (y * width + x) = 24) ∧
          (∃ cx cy : ℕ, cx < width ∧ cy < height ∧ riverMask (cy * width + cx) = true ∧
            ((cx : ℤ) - (x : ℤ)).natAbs ≤ 2 ∧ ((cy : ℤ) - (y : ℤ)).natAbs ≤ 2) ∧
          (oreNoise ((x : ℚ) * config.oreScale) ((y : ℚ) * config.oreScale) + 1) * (1/2) >
            config.goldRarity) := by
        intro hc
        exact hG ⟨hc.1, hnr.mpr hc.2.1, hc.2.2⟩
      set I := ((biomeIds (y * width + x) = 25 ∨ biomeIds (y * width + x) = 24 ∨
        biomeIds (y * width + x) = 18) ∧
        (oreNoise ((x : ℚ) * config.oreScale) ((y : ℚ) * config.oreScale) + 1) * (1/2) >
          config.ironRarity) with hIdef
      by_cases hI : I
      · rw [if_pos hI]
        refine ⟨?_, ?_, ?_, ?_⟩
        · constructor
          · intro hc; exact absurd hc hGiff
          · intro hc; exact absurd hc (by simp)
        · intro _
          constructor
          · intro _; rfl
          · intro _; exact hI
        · rintro ⟨-, hne⟩; exact absurd rfl hne
        · rintro ⟨-, hne, -⟩; exact absurd rfl hne
      · rw [if_neg hI]
        set F := (nearWater elevation width height seaLevel (y * width + x) = true ∧
          biomeIds (y * width + x) ≠ 4 ∧ biomeIds (y * width + x) ≠ 3) with hFdef
        have hFiff : F ↔ (((0 < x ∧ elevation (y * width + (x - 1)) ≤ seaLevel) ∨
            (x + 1 < width ∧ elevation (y * width + (x + 1)) ≤ seaLevel) ∨
            (0 < y ∧ elevation ((y - 1) * width + x) ≤ seaLevel) ∨
            (y + 1 < height ∧ elevation ((y + 1) * width + x) ≤ seaLevel)) ∧
            biomeIds (y * width + x) ≠ 4 ∧ biomeIds (y * width + x) ≠ 3) := by
          rw [hFdef, hnw]
          constructor
          · rintro ⟨⟨-, hadj⟩, hb⟩; exact ⟨hadj, hb⟩
          · rintro ⟨hadj, hb⟩; exact ⟨⟨hland, hadj⟩, hb⟩
        by_cases hF : F
        · rw [if_pos hF]
          refine ⟨?_, ?_, ?_, ?_⟩
          · constructor
            · intro hc; exact absurd hc hGiff
            · intro hc; exact absurd hc (by simp)
          · intro _
            constructor
            · intro hc; exact absurd hI (by exact fun h => h hc)
            · intro hc; exact absurd hc (by simp)
          · intro _
            constructor
            · intro _; rfl
            · intro _; exact hFiff.mp hF
          · rintro ⟨-, -, hne⟩; exact absurd rfl hne
        · rw [if_neg hF]
          rcases hbr : BIOME_RESOURCE (biomeIds (y * width + x)) with _ | b
          · exact ⟨⟨fun hc => absurd hc hGiff, fun hc => ResourceType.noConfusion hc⟩,
              fun _ => ⟨fun hc => absurd hc hI, fun hc => ResourceType.noConfusion hc⟩,
              fun _ => ⟨fun hc => absurd (hFiff.mpr hc) hF,
                fun hc => ResourceType.noConfusion hc⟩,
              fun _ => ⟨fun _ => ⟨rfl, rfl⟩, fun b2 hb2 => Option.noConfusion hb2⟩⟩
          · have hvals := BIOME_RESOURCE_values (biomeIds (y * width + x)) b hbr
            have hnot : b ≠ .Gold ∧ b ≠ .Iron ∧ b ≠ .Fish := by
              rcases hvals with h | h | h | h <;> subst h <;>
                exact ⟨by decide, by decide, by decide⟩
            dsimp only
            by_cases hD : config.minDensity ≤
                ((round ((densityNoise ((x : ℚ) * (1/100)) ((y : ℚ) * (1/100)) + 1) *
                  (1/2) * 180 + 40) : ℤ) : ℚ)
            · rw [if_pos hD]
              by_cases hFer : b = ResourceType.Fertile
              · rw [if_pos hFer]
                refine ⟨⟨fun hc => absurd hc hGiff, fun hc => absurd hc hnot.1⟩,
                  fun _ => ⟨fun hc => absurd hc hI, fun hc => absurd hc hnot.2.1⟩,
                  fun _ => ⟨fun hc => absurd (hFiff.mpr hc) hF, fun hc => absurd hc hnot.2.2⟩,
                  fun _ => ⟨fun hnone => Option.noConfusion hnone, fun b2 hb2 => ?_⟩⟩
                cases Option.some.inj hb2
                exact ⟨fun _ => ⟨rfl, fun _ => rfl, fun hne => absurd hFer hne⟩,
                  fun hlt => absurd hD (not_le.mpr hlt)⟩
              · rw [if_neg hFer]
                refine ⟨⟨fun hc => absurd hc hGiff, fun hc => absurd hc hnot.1⟩,
                  fun _ => ⟨fun hc => absurd hc hI, fun hc => absurd hc hnot.2.1⟩,
                  fun _ => ⟨fun hc => absurd (hFiff.mpr hc) hF, fun hc => absurd hc hnot.2.2⟩,
                  fun _ => ⟨fun hnone => Option.noConfusion hnone, fun b2 hb2 => ?_⟩⟩
                cases Option.some.inj hb2
                exact ⟨fun _ => ⟨rfl, fun hcF => absurd hcF hFer, fun _ => rfl⟩,
                  fun hlt => absurd hD (not_le.mpr hlt)⟩
            · rw [if_neg hD]
              refine ⟨⟨fun hc => absurd hc hGiff, fun hc => ResourceType.noConfusion hc⟩,
                fun _ => ⟨fun hc => absurd hc hI, fun hc => ResourceType.noConfusion hc⟩,
                fun _ => ⟨fun hc => absurd (hFiff.mpr hc) hF,
                  fun hc => ResourceType.noConfusion hc⟩,
                fun _ => ⟨fun hnone => Option.noConfusion hnone, fun b2 hb2 => ?_⟩⟩
              cases Option.some.inj hb2
              exact ⟨fun hle => absurd hle hD, fun _ => ⟨rfl, rfl⟩⟩

/-- Witness for `generateResources_spec` on a 1×1 grassland world: the
single land cell gets the biome-default fertile soil. -/
theorem generateResources_spec_witness :
    (generateResources (fun _ => (1 : ℚ)) (fun _ => 1) (fun _ => 12) (fun _ => false) 1 1 0
      (fun _ _ => 0) (fun _ _ => 0) ⟨1, 1, 1, 30⟩).1 (0 * 1 + 0) = ResourceType.Fertile := by
  have h := generateResources_spec (fun _ => (1 : ℚ)) (fun _ => 1) (fun _ => 12) (fun _ => false)
    1 1 0 (fun _ _ => 0) (fun _ _ => 0) ⟨1, 1, 1, 30⟩ 0 0 (by decide) (by decide)
  have h2 := h.2 (by norm_num)
  exact (((h2.2.2.2 ⟨by with_unfolding_all decide, by with_unfolding_all decide,
    by with_unfolding_all decide⟩).2 ResourceType.Fertile (by decide)).1
    (by with_unfolding_all decide)).1

/-- `RiverConfig` (rivers.ts).  `humidityRadius` is an integer tile
radius. -/
structure RiverConfig where
  primaryScale : ℚ
  secondaryScale : ℚ
  primaryThreshold : ℚ
  secondaryThreshold : ℚ
  primaryWidth : ℚ
  secondaryWidth : ℚ
  humidityBoost : ℚ
  humidityRadius : ℕ
  mountainCutoff : ℚ
  shoreTaper : ℚ
  warpStrength : Option ℚ
  noiseOctaves : Option ℤ
  noisePersistence : Option ℚ
  noiseLacunarity : Option ℚ

/-- Offsets `(oy + r, ox + r)` of the humidity-boost box scan
(`oy` outer, from `-r` to `r`). -/
def boostOffsets (radius : ℕ) : List (ℕ × ℕ) :=
  (List.range' 0 (2 * radius + 1)).flatMap fun a =>
    (List.range' 0 (2 * radius + 1)).map fun b => (a, b)

/-- One river cell's pass of `applyHumidityBoost`: raise the humidity of
every in-bounds cell within the Euclidean radius by the linearly-decaying
boost, combining via maximum and clamping at 1.  `rsqrt` stands for the
runtime `Math.sqrt`. -/
def boostStep (humidity : ℕ → ℚ) (riverMask : ℕ → Bool) (width height : ℕ)
    (config : RiverConfig) (rsqrt : ℚ → ℚ) (boosted : ℕ → ℚ) (c : ℕ × ℕ) : ℕ → ℚ :=
  if riverMask (c.2 * width + c.1) = false then boosted
  else
    (boostOffsets config.humidityRadius).foldl
      (fun b o =>
        if 0 ≤ (c.1 : ℤ) + o.2 - config.humidityRadius ∧
            0 ≤ (c.2 : ℤ) + o.1 - config.humidityRadius ∧
            (c.1 : ℤ) + o.2 - config.humidityRadius < (width : ℤ) ∧
            (c.2 : ℤ) + o.1 - config.humidityRadius < (height : ℤ) then
          if ((o.2 : ℤ) - config.humidityRadius) * ((o.2 : ℤ) - config.humidityRadius) +
              ((o.1 : ℤ) - config.humidityRadius) * ((o.1 : ℤ) - config.humidityRadius) >
              (config.humidityRadius : ℤ) * (config.humidityRadius : ℤ) then b
          else
            fun n =>
              if n = ((c.2 : ℤ) + o.1 - config.humidityRadius).toNat * width +
                  ((c.1 : ℤ) + o.2 - config.humidityRadius).toNat then
                min 1 (max
                  (b (((c.2 : ℤ) + o.1 - config.humidityRadius).toNat * width +
                    ((c.1 : ℤ) + o.2 - config.humidityRadius).toNat))
                  (humidity (((c.2 : ℤ) + o.1 - config.humidityRadius).toNat * width +
                    ((c.1 : ℤ) + o.2 - config.humidityRadius).toNat) +
                    config.humidityBoost *
                      (1 - rsqrt ((((o.2 : ℤ) - config.humidityRadius) *
                          ((o.2 : ℤ) - config.humidityRadius) +
                          ((o.1 : ℤ) - config.humidityRadius) *
                          ((o.1 : ℤ) - config.humidityRadius) : ℤ) : ℚ) /
                        ((config.humidityRadius : ℚ) + 1/100))))
              else b n
        else b)
      boosted

/-- `RiverGenerator.applyHumidityBoost`: start from a copy of the humidity
field and let every river cell raise its neighbourhood. -/
def applyHumidityBoost (humidity : ℕ → ℚ) (riverMask : ℕ → Bool) (width height : ℕ)
    (config : RiverConfig) (rsqrt : ℚ → ℚ) : ℕ → ℚ :=
  (gridCells width height).foldl (boostStep humidity riverMask width height config rsqrt)
    humidity

/-- The boost the river cell `c` applies to the cell `(x, y)`
(`humidityBoost` scaled by the linear distance decay). -/
def boostOf (config : RiverConfig) (rsqrt : ℚ → ℚ) (c : ℕ × ℕ) (x y : ℕ) : ℚ :=
  config.humidityBoost *
    (1 - rsqrt ((((c.1 : ℤ) - (x : ℤ)) * ((c.1 : ℤ) - (x : ℤ)) +
        ((c.2 : ℤ) - (y : ℤ)) * ((c.2 : ℤ) - (y : ℤ)) : ℤ) : ℚ) /
      ((config.humidityRadius : ℚ) + 1/100))

/-- The river cells whose Euclidean distance to `(x, y)` is at most the
humidity radius, in scan order — the cells whose boosts reach `(x, y)`. -/
def riverCellsNear (riverMask : ℕ → Bool) (width height : ℕ) (config : RiverConfig)
    (x y : ℕ) : List (ℕ × ℕ) :=
  (gridCells width height).filter fun c =>
    riverMask (c.2 * width + c.1) &&
      decide (((c.1 : ℤ) - (x : ℤ)) * ((c.1 : ℤ) - (x : ℤ)) +
        ((c.2 : ℤ) - (y : ℤ)) * ((c.2 : ℤ) - (y : ℤ)) ≤
        (config.humidityRadius : ℤ) * (config.humidityRadius : ℤ))

theorem boostOffsets_mem (radius : ℕ) (o : ℕ × ℕ) :
    o ∈ boostOffsets radius ↔ o.1 < 2 * radius + 1 ∧ o.2 < 2 * radius + 1 := by
  rcases o with ⟨a, b⟩
  simp only [boostOffsets, List.mem_flatMap, List.mem_map, List.mem_range'_1]
  constructor
  · rintro ⟨oy, hoy, ox, hox, heq⟩
    cases heq
    exact ⟨by omega, by omega⟩
  · rintro ⟨ha, hb⟩
    exact ⟨a, by omega, b, by omega, rfl⟩

theorem boostOffsets_nodup (radius : ℕ) : (boostOffsets radius).Nodup := by
  have h : boostOffsets radius =
      (List.range' 0 (2 * radius + 1)) ×ˢ (List.range' 0 (2 * radius + 1)) := rfl
  rw [h]
  exact List.Nodup.product (List.nodup_range' _ _) (List.nodup_range' _ _)

/-- A fold whose steps never touch index `t` keeps its value there. -/
theorem foldl_point_keep {α : Type} (l : List α) (F : (ℕ → ℚ) → α → (ℕ → ℚ)) (t : ℕ)
    (P : α → Prop) (hno : ∀ (b : ℕ → ℚ), ∀ a ∈ l, ¬ P a → (F b a) t = b t)
    (hnop : ∀ a ∈ l, ¬ P a) : ∀ b : ℕ → ℚ, (l.foldl F b) t = b t := by
  induction l with
  | nil => intro b; rfl
  | cons a l ih =>
    intro b
    rw [List.foldl_cons]
    rw [ih (fun b a ha => hno b a (List.mem_cons_of_mem _ ha))
      (fun a ha => hnop a (List.mem_cons_of_mem _ ha))]
    exact hno b a (List.mem_cons_self a l) (hnop a (List.mem_cons_self a l))

open Classical in
/-- A fold over a duplicate-free list in which at most one element can
update index `t` (all the same way) either applies that single update or
leaves the value unchanged. -/
theorem foldl_point_update {α : Type} (l : List α) (F : (ℕ → ℚ) → α → (ℕ → ℚ)) (t : ℕ)
    (g : ℚ → ℚ) (P : α → Prop) (hl : l.Nodup)
    (hno : ∀ (b : ℕ → ℚ), ∀ a ∈ l, ¬ P a → (F b a) t = b t)
    (hyes : ∀ (b : ℕ → ℚ), ∀ a ∈ l, P a → (F b a) t = g (b t))
    (huniq : ∀ a ∈ l, ∀ a' ∈ l, P a → P a' → a = a') :
    ∀ b : ℕ → ℚ, (l.foldl F b) t = if ∃ a ∈ l, P a then g (b t) else b t := by
  induction l with
  | nil => intro b; simp
  | cons a l ih =>
    intro b
    rw [List.foldl_cons]
    by_cases hPa : P a
    · have htail : ∀ a' ∈ l, ¬ P a' := by
        intro a' ha' hPa'
        have heq := huniq a (List.mem_cons_self a l) a' (List.mem_cons_of_mem _ ha') hPa hPa'
        rw [← heq] at ha'
        exact (List.nodup_cons.mp hl).1 ha'
      rw [foldl_point_keep l F t P
        (fun b a ha => hno b a (List.mem_cons_of_mem _ ha)) htail]
      rw [hyes b a (List.mem_cons_self a l) hPa]
      rw [if_pos ⟨a, List.mem_cons_self a l, hPa⟩]
    · have h1 : (F b a) t = b t := hno b a (List.mem_cons_self a l) hPa
      rw [ih (List.nodup_cons.mp hl).2
        (fun b a ha => hno b a (List.mem_cons_of_mem _ ha))
        (fun b a ha => hyes b a (List.mem_cons_of_mem _ ha))
        (fun a ha a' ha' => huniq a (List.mem_cons_of_mem _ ha) a'
          (List.mem_cons_of_mem _ ha')) (F b a)]
      rw [h1]
      by_cases hex : ∃ a' ∈ l, P a'
      · have hex2 : ∃ a' ∈ a :: l, P a' := by
          obtain ⟨a', ha', hP⟩ := hex
          exact ⟨a', List.mem_cons_of_mem _ ha', hP⟩
        rw [if_pos hex, if_pos hex2]
      · have hex2 : ¬ ∃ a' ∈ a :: l, P a' := by
          rintro ⟨a', ha', hP⟩
          rcases List.mem_cons.mp ha' with rfl | ha'
          · exact hPa hP
          · exact hex ⟨a', ha', hP⟩
        rw [if_neg hex, if_neg hex2]

/-- Evaluate a fold of state-updates at one index, when each step's effect
there only depends on the current value there. -/
theorem foldl_apply_point {α : Type} (l : List α) (F : (ℕ → ℚ) → α → (ℕ → ℚ)) (t : ℕ)
    (T : α → ℚ → ℚ) (hpt : ∀ (b : ℕ → ℚ), ∀ a ∈ l, (F b a) t = T a (b t)) :
    ∀ b : ℕ → ℚ, (l.foldl F b) t = l.foldl (fun v a => T a v) (b t) := by
  induction l with
  | nil => intro b; rfl
  | cons a l ih =>
    intro b
    rw [List.foldl_cons, List.foldl_cons,
      ih (fun b a ha => hpt b a (List.mem_cons_of_mem _ ha)) (F b a),
      hpt b a (List.mem_cons_self a l)]

/-- Folding a conditional update equals folding the update over the
filtered list. -/
theorem foldl_filter_cond {α : Type} (l : List α) (p : α → Bool) (g : α → ℚ → ℚ) :
    ∀ v : ℚ, l.foldl (fun v a => if p a = true then g a v else v) v =
      (l.filter p).foldl (fun v a => g a v) v := by
  induction l with
  | nil => intro v; rfl
  | cons a l ih =>
    intro v
    rw [List.foldl_cons]
    by_cases hp : p a = true
    · rw [if_pos hp, List.filter_cons_of_pos hp, List.foldl_cons, ih]
    · rw [if_neg hp, List.filter_cons_of_neg (by simpa using hp), ih]

theorem le_foldl_max (l : List ℚ) : ∀ m : ℚ, m ≤ l.foldl max m := by
  induction l with
  | nil => intro m; exact le_refl m
  | cons a l ih =>
    intro m
    rw [List.foldl_cons]
    exact le_trans (le_max_left m a) (ih (max m a))

/-- Folding clamped maxima over a clamped start is the clamp of the plain
maximum fold. -/
theorem foldl_clamp_eq (l : List ℚ) : ∀ M : ℚ,
    l.foldl (fun v β => min 1 (max v β)) (min 1 M) =
      min 1 (l.foldl (fun m β => max m β) M) := by
  induction l with
  | nil => intro M; rfl
  | cons β l ih =>
    intro M
    rw [List.foldl_cons, List.foldl_cons]
    have h : min 1 (max (min 1 M) β) = min 1 (max M β) := by
      rw [min_max_distrib_left, min_max_distrib_left]
      congr 1
      rw [← min_assoc, min_self]
    rw [h]
    exact ih (max M β)

theorem int_abs_le_of_sq_le_sq (a r : ℤ) (hr : 0 ≤ r) (h : a * a ≤ r * r) :
    -r ≤ a ∧ a ≤ r := by
  constructor <;> nlinarith [sq_nonneg (a - r), sq_nonneg (a + r)]

set_option maxHeartbeats 1000000 in
theorem boostStep_at (humidity : ℕ → ℚ) (riverMask : ℕ → Bool) (width height : ℕ)
    (config : RiverConfig) (rsqrt : ℚ → ℚ) (x y : ℕ) (hx : x < width) (hy : y < height)
    (b : ℕ → ℚ) (c : ℕ × ℕ) :
    (boostStep humidity riverMask width height config rsqrt b c) (y * width + x) =
      if (riverMask (c.2 * width + c.1) &&
          decide (((c.1 : ℤ) - (x : ℤ)) * ((c.1 : ℤ) - (x : ℤ)) +
            ((c.2 : ℤ) - (y : ℤ)) * ((c.2 : ℤ) - (y : ℤ)) ≤
            (config.humidityRadius : ℤ) * (config.humidityRadius : ℤ))) = true then
        min 1 (max (b (y * width + x))
          (humidity (y * width + x) + boostOf config rsqrt c x y))
      else b (y * width + x) := by
  by_cases hriv : riverMask (c.2 * width + c.1) = false
  · simp only [boostStep]
    rw [if_pos hriv, if_neg (by simp [hriv])]
  · have hrivT : riverMask (c.2 * width + c.1) = true := by
      simpa using hriv
    simp only [boostStep]
    rw [if_neg hriv]
    rw [foldl_point_update (boostOffsets config.humidityRadius) _ (y * width + x)
      (fun v => min 1 (max v
        (humidity (y * width + x) + boostOf config rsqrt c x y)))
      (fun o => (0 ≤ (c.1 : ℤ) + o.2 - config.humidityRadius ∧
          0 ≤ (c.2 : ℤ) + o.1 - config.humidityRadius ∧
          (c.1 : ℤ) + o.2 - config.humidityRadius < (width : ℤ) ∧
          (c.2 : ℤ) + o.1 - config.humidityRadius < (height : ℤ)) ∧
        ¬ (((o.2 : ℤ) - config.humidityRadius) * ((o.2 : ℤ) - config.humidityRadius) +
            ((o.1 : ℤ) - config.humidityRadius) * ((o.1 : ℤ) - config.humidityRadius) >
            (config.humidityRadius : ℤ) * (config.humidityRadius : ℤ)) ∧
        ((c.2 : ℤ) + o.1 - config.humidityRadius).toNat * width +
          ((c.1 : ℤ) + o.2 - config.humidityRadius).toNat = y * width + x)
      (boostOffsets_nodup config.humidityRadius) ?_ ?_ ?_ b]
    rotate_left
    · -- a step whose offset misses the target leaves it unchanged
      intro b o ho hnP
      by_cases hb1 : (0 ≤ (c.1 : ℤ) + o.2 - config.humidityRadius ∧
          0 ≤ (c.2 : ℤ) + o.1 - config.humidityRadius ∧
          (c.1 : ℤ) + o.2 - config.humidityRadius < (width : ℤ) ∧
          (c.2 : ℤ) + o.1 - config.humidityRadius < (height : ℤ))
      · rw [if_pos hb1]
        by_cases hd : (((o.2 : ℤ) - config.humidityRadius) *
            ((o.2 : ℤ) - config.humidityRadius) +
            ((o.1 : ℤ) - config.humidityRadius) * ((o.1 : ℤ) - config.humidityRadius) >
            (config.humidityRadius : ℤ) * (config.humidityRadius : ℤ))
        · rw [if_pos hd]
        · rw [if_neg hd]
          have htgt : ¬ (y * width + x =
              ((c.2 : ℤ) + o.1 - config.humidityRadius).toNat * width +
                ((c.1 : ℤ) + o.2 - config.humidityRadius).toNat) := by
            intro he
            exact hnP ⟨hb1, hd, he.symm⟩
          rw [if_neg htgt]
      · rw [if_neg hb1]
    · -- the unique hitting offset applies the clamped max update
      intro b o ho hP
      obtain ⟨hb1, hd, htgt⟩ := hP
      rw [if_pos hb1, if_neg hd, if_pos htgt.symm]
      have hxb : ((c.1 : ℤ) + o.2 - config.humidityRadius).toNat < width := by omega
      obtain ⟨hxe, hye⟩ := gridIdx_inj width x y
        (((c.2 : ℤ) + o.1 - config.humidityRadius).toNat)
        (((c.1 : ℤ) + o.2 - config.humidityRadius).toNat) hx hxb htgt.symm
      have d2 : (o.2 : ℤ) - config.humidityRadius = (x : ℤ) - c.1 := by omega
      have d1 : (o.1 : ℤ) - config.humidityRadius = (y : ℤ) - c.2 := by omega
      rw [htgt, d1, d2]
      have hdist : ((x : ℤ) - c.1) * ((x : ℤ) - c.1) + ((y : ℤ) - c.2) * ((y : ℤ) - c.2) =
          ((c.1 : ℤ) - x) * ((c.1 : ℤ) - x) + ((c.2 : ℤ) - y) * ((c.2 : ℤ) - y) := by
        ring
      rw [hdist]
      rfl
    · -- at most one offset hits the target
      intro o ho o' ho' hP hP'
      obtain ⟨hb1, hd, htgt⟩ := hP
      obtain ⟨hb1', hd', htgt'⟩ := hP'
      have hxb : ((c.1 : ℤ) + o.2 - config.humidityRadius).toNat < width := by omega
      have hxb' : ((c.1 : ℤ) + o'.2 - config.humidityRadius).toNat < width := by omega
      obtain ⟨hxe, hye⟩ := gridIdx_inj width x y _ _ hx hxb htgt.symm
      obtain ⟨hxe', hye'⟩ := gridIdx_inj width x y _ _ hx hxb' htgt'.symm
      have h1 : o.1 = o'.1 := by omega
      have h2 : o.2 = o'.2 := by omega
      exact Prod.ext h1 h2
    -- turn the existence of a hitting offset into the distance test
    by_cases hsum : ((c.1 : ℤ) - (x : ℤ)) * ((c.1 : ℤ) - (x : ℤ)) +
        ((c.2 : ℤ) - (y : ℤ)) * ((c.2 : ℤ) - (y : ℤ)) ≤
        (config.humidityRadius : ℤ) * (config.humidityRadius : ℤ)
    · have hq1 : ((c.1 : ℤ) - x) * ((c.1 : ℤ) - x) ≤
          (config.humidityRadius : ℤ) * (config.humidityRadius : ℤ) := by
        nlinarith [mul_self_nonneg ((c.2 : ℤ) - y)]
      have hq2 : ((c.2 : ℤ) - y) * ((c.2 : ℤ) - y) ≤
          (config.humidityRadius : ℤ) * (config.humidityRadius : ℤ) := by
        nlinarith [mul_self_nonneg ((c.1 : ℤ) - x)]
      have ha1 := int_abs_le_of_sq_le_sq ((c.1 : ℤ) - x) (config.humidityRadius : ℤ)
        (Int.ofNat_nonneg _) hq1
      have ha2 := int_abs_le_of_sq_le_sq ((c.2 : ℤ) - y) (config.humidityRadius : ℤ)
        (Int.ofNat_nonneg _) hq2
      have hex : ∃ o ∈ boostOffsets config.humidityRadius,
          (0 ≤ (c.1 : ℤ) + o.2 - config.humidityRadius ∧
            0 ≤ (c.2 : ℤ) + o.1 - config.humidityRadius ∧
            (c.1 : ℤ) + o.2 - config.humidityRadius < (width : ℤ) ∧
            (c.2 : ℤ) + o.1 - config.humidityRadius < (height : ℤ)) ∧
          ¬ (((o.2 : ℤ) - config.humidityRadius) * ((o.2 : ℤ) - config.humidityRadius) +
              ((o.1 : ℤ) - config.humidityRadius) * ((o.1 : ℤ) - config.humidityRadius) >
              (config.humidityRadius : ℤ) * (config.humidityRadius : ℤ)) ∧
          ((c.2 : ℤ) + o.1 - config.humidityRadius).toNat * width +
            ((c.1 : ℤ) + o.2 - config.humidityRadius).toNat = y * width + x := by
        refine ⟨(y + config.humidityRadius - c.2, x + config.humidityRadius - c.1),
          (boostOffsets_mem _ _).mpr ⟨by dsimp only; omega, by dsimp only; omega⟩,
          ⟨by dsimp only; omega, by dsimp only; omega,
            by dsimp only; omega, by dsimp only; omega⟩, ?_, ?_⟩
        · dsimp only
          have e2 : ((x + config.humidityRadius - c.1 : ℕ) : ℤ) - config.humidityRadius =
              (x : ℤ) - c.1 := by omega
          have e1 : ((y + config.humidityRadius - c.2 : ℕ) : ℤ) - config.humidityRadius =
              (y : ℤ) - c.2 := by omega
          rw [e1, e2]
          exact not_lt.mpr (by nlinarith [hsum])
        · dsimp only
          have e1 : ((c.2 : ℤ) + ((y + config.humidityRadius - c.2 : ℕ) : ℤ) -
              config.humidityRadius).toNat = y := by omega
          have e2 : ((c.1 : ℤ) + ((x + config.humidityRadius - c.1 : ℕ) : ℤ) -
              config.humidityRadius).toNat = x := by omega
          rw [e1, e2]
      rw [if_pos hex, if_pos (by simp [hrivT, hsum])]
    · have hnex : ¬ ∃ o ∈ boostOffsets config.humidityRadius,
          (0 ≤ (c.1 : ℤ) + o.2 - config.humidityRadius ∧
            0 ≤ (c.2 : ℤ) + o.1 - config.humidityRadius ∧
            (c.1 : ℤ) + o.2 - config.humidityRadius < (width : ℤ) ∧
            (c.2 : ℤ) + o.1 - config.humidityRadius < (height : ℤ)) ∧
          ¬ (((o.2 : ℤ) - config.humidityRadius) * ((o.2 : ℤ) - config.humidityRadius) +
              ((o.1 : ℤ) - config.humidityRadius) * ((o.1 : ℤ) - config.humidityRadius) >
              (config.humidityRadius : ℤ) * (config.humidityRadius : ℤ)) ∧
          ((c.2 : ℤ) + o.1 - config.humidityRadius).toNat * width +
            ((c.1 : ℤ) + o.2 - config.humidityRadius).toNat = y * width + x := by
        rintro ⟨o, hmem, ⟨hb1, hb2, hb3, hb4⟩, hd, htgt⟩
        have hd' := not_lt.mp hd
        have hxb : ((c.1 : ℤ) + o.2 - config.humidityRadius).toNat < width := by omega
        obtain ⟨hxe, hye⟩ := gridIdx_inj width x y
          (((c.2 : ℤ) + o.1 - config.humidityRadius).toNat)
          (((c.1 : ℤ) + o.2 - config.humidityRadius).toNat) hx hxb htgt.symm
        have d2 : (o.2 : ℤ) - config.humidityRadius = (x : ℤ) - c.1 := by omega
        have d1 : (o.1 : ℤ) - config.humidityRadius = (y : ℤ) - c.2 := by omega
        rw [d1, d2] at hd'
        apply hsum
        calc ((c.1 : ℤ) - x) * ((c.1 : ℤ) - x) + ((c.2 : ℤ) - y) * ((c.2 : ℤ) - y) =
            ((x : ℤ) - c.1) * ((x : ℤ) - c.1) + ((y : ℤ) - c.2) * ((y : ℤ) - c.2) := by ring
          _ ≤ (config.humidityRadius : ℤ) * (config.humidityRadius : ℤ) := hd'
      rw [if_neg hnex, if_neg (by simp [hrivT, hsum])]

theorem foldl_clampmax_eq {α : Type} (f : α → ℚ) (l : List α) (M : ℚ) (hM : M ≤ 1) :
    l.foldl (fun v c => min 1 (max v (f c))) M =
      min 1 (l.foldl (fun m c => max m (f c)) M) := by
  have h1 : l.foldl (fun v c => min 1 (max v (f c))) M =
      (l.map f).foldl (fun v β => min 1 (max v β)) M :=
    (List.foldl_map f (fun v β => min 1 (max v β)) l M).symm
  have h2 : l.foldl (fun m c => max m (f c)) M =
      (l.map f).foldl (fun m β => max m β) M :=
    (List.foldl_map f (fun m β => max m β) l M).symm
  rw [h1, h2]
  conv_lhs => rw [← min_eq_right hM]
  exact foldl_clamp_eq (l.map f) M

set_option maxHeartbeats 1000000 in
/-- C7: `applyHumidityBoost` combines overlapping river boosts by maximum,
not addition: the output humidity at an in-bounds cell `(x, y)` is exactly
the clamp at 1 of the maximum, over all river cells within `humidityRadius`
(Euclidean), of the input humidity plus the linearly-decaying boost from
that river cell; consequently the output is at least the input humidity. -/
theorem applyHumidityBoost_spec (humidity : ℕ → ℚ) (riverMask : ℕ → Bool)
    (width height : ℕ) (config : RiverConfig) (rsqrt : ℚ → ℚ) (x y : ℕ)
    (hx : x < width) (hy : y < height) (h1 : humidity (y * width + x) ≤ 1) :
    applyHumidityBoost humidity riverMask width height config rsqrt (y * width + x) =
      min 1 ((riverCellsNear riverMask width height config x y).foldl
        (fun m c => max m (humidity (y * width + x) + boostOf config rsqrt c x y))
        (humidity (y * width + x))) ∧
    humidity (y * width + x) ≤
      applyHumidityBoost humidity riverMask width height config rsqrt (y * width + x) := by
  have heq : applyHumidityBoost humidity riverMask width height config rsqrt
      (y * width + x) =
      min 1 ((riverCellsNear riverMask width height config x y).foldl
        (fun m c => max m (humidity (y * width + x) + boostOf config rsqrt c x y))
        (humidity (y * width + x))) := by
    simp only [applyHumidityBoost]
    rw [foldl_apply_point (gridCells width height)
      (boostStep humidity riverMask width height config rsqrt) (y * width + x)
      (fun c v =>
        if (riverMask (c.2 * width + c.1) &&
            decide (((c.1 : ℤ) - (x : ℤ)) * ((c.1 : ℤ) - (x : ℤ)) +
              ((c.2 : ℤ) - (y : ℤ)) * ((c.2 : ℤ) - (y : ℤ)) ≤
              (config.humidityRadius : ℤ) * (config.humidityRadius : ℤ))) = true then
          min 1 (max v
            (humidity (y * width + x) + boostOf config rsqrt c x y))
        else v)
      (fun b c _ => boostStep_at humidity riverMask width height config rsqrt
        x y hx hy b c) humidity]
    rw [foldl_filter_cond (gridCells width height)
      (fun c =>
        riverMask (c.2 * width + c.1) &&
          decide (((c.1 : ℤ) - (x : ℤ)) * ((c.1 : ℤ) - (x : ℤ)) +
            ((c.2 : ℤ) - (y : ℤ)) * ((c.2 : ℤ) - (y : ℤ)) ≤
            (config.humidityRadius : ℤ) * (config.humidityRadius : ℤ)))
      (fun c v => min 1 (max v
        (humidity (y * width + x) + boostOf config rsqrt c x y)))
      (humidity (y * width + x))]
    simp only [riverCellsNear]
    exact foldl_clampmax_eq
      (fun c => humidity (y * width + x) + boostOf config rsqrt c x y) _ _ h1
  refine ⟨heq, ?_⟩
  rw [heq]
  have hle : humidity (y * width + x) ≤
      (riverCellsNear riverMask width height config x y).foldl
        (fun m c => max m (humidity (y * width + x) + boostOf config rsqrt c x y))
        (humidity (y * width + x)) := by
    have h := le_foldl_max ((riverCellsNear riverMask width height config x y).map
      (fun c => humidity (y * width + x) + boostOf config rsqrt c x y))
      (humidity (y * width + x))
    rwa [List.foldl_map] at h
  exact le_min h1 hle

theorem applyHumidityBoost_spec_witness :
    ((0 : ℕ) < 1 ∧ (0 : ℕ) < 1 ∧ (fun _ : ℕ => (1/2 : ℚ)) (0 * 1 + 0) ≤ 1) ∧
    (applyHumidityBoost (fun _ => (1/2 : ℚ)) (fun _ => true) 1 1
        ⟨0, 0, 0, 0, 0, 0, 1/4, 0, 0, 0, none, none, none, none⟩ (fun _ => 0) (0 * 1 + 0) =
      min 1 ((riverCellsNear (fun _ => true) 1 1
          ⟨0, 0, 0, 0, 0, 0, 1/4, 0, 0, 0, none, none, none, none⟩ 0 0).foldl
        (fun m c => max m ((fun _ : ℕ => (1/2 : ℚ)) (0 * 1 + 0) +
          boostOf ⟨0, 0, 0, 0, 0, 0, 1/4, 0, 0, 0, none, none, none, none⟩ (fun _ => 0) c 0 0))
        ((fun _ : ℕ => (1/2 : ℚ)) (0 * 1 + 0))) ∧
     (fun _ : ℕ => (1/2 : ℚ)) (0 * 1 + 0) ≤
      applyHumidityBoost (fun _ => (1/2 : ℚ)) (fun _ => true) 1 1
        ⟨0, 0, 0, 0, 0, 0, 1/4, 0, 0, 0, none, none, none, none⟩ (fun _ => 0) (0 * 1 + 0)) :=
  ⟨⟨by decide, by decide, by norm_num⟩,
    applyHumidityBoost_spec (fun _ => (1/2 : ℚ)) (fun _ => true) 1 1
      ⟨0, 0, 0, 0, 0, 0, 1/4, 0, 0, 0, none, none, none, none⟩ (fun _ => 0) 0 0
      (by decide) (by decide) (by norm_num)⟩

/-- Number of tiles strictly above the configured sea level
(the worker's `landCount` loop). -/
def landCount (elevation : ℕ → ℚ) (total : ℕ) (seaLevel : ℚ) : ℕ :=
  ((List.range total).filter fun i => decide (seaLevel < elevation i)).length

/-- `Math.floor(totalTiles * minLandRatio)` — the worker's `targetLand`. -/
def targetLand (total : ℕ) (r : ℚ) : ℤ := ⌊(total : ℚ) * r⌋

/-- Every 4th elevation sample, sorted ascending (the worker's `sample`
after `sample.sort()`; `sampleSize = Math.ceil(totalTiles / 4)`). -/
def sampleSorted (elevation : ℕ → ℚ) (total : ℕ) : List ℚ :=
  ((List.range ((total + 3) / 4)).map fun i => elevation (i * 4)).mergeSort
    fun a b => decide (a ≤ b)

/-- `Math.floor(sampleSize * (1 - minLandRatio))` — the worker's `cutIdx`. -/
def cutIdx (total : ℕ) (r : ℚ) : ℕ :=
  (⌊((((total + 3) / 4 : ℕ) : ℚ)) * (1 - r)⌋).toNat

/-- The worker's land-fraction guarantee (`part_009`, lines 104–131):
starting from the configured sea level, when `minLandRatio` is set and
positive and the land count falls short of `targetLand`, replace the sea
level by `min(seaLevel, sample[cutIdx] - 0.001)` and floor the result at
`0.05`. -/
def effectiveSeaLevel (elevation : ℕ → ℚ) (total : ℕ) (seaLevel : ℚ)
    (minLandRatio : Option ℚ) : ℚ :=
  match minLandRatio with
  | none => seaLevel
  | some r =>
    if 0 < r then
      if (landCount elevation total seaLevel : ℤ) < targetLand total r then
        if min seaLevel ((sampleSorted elevation total).getD (cutIdx total r) 0 -
            1/1000) < 1/20 then 1/20
        else min seaLevel ((sampleSorted elevation total).getD (cutIdx total r) 0 -
          1/1000)
      else seaLevel
    else seaLevel

/-- C8 counterexample: the effective sea level can be RAISED strictly above
the configured sea level — with all elevations 0, configured sea level
`0.01` and `minLandRatio = 0.5` on a 4-tile map, the lowering branch runs,
computes `min(0.01, -0.001)` and the `0.05` safety floor lifts the result
to `0.05 > 0.01`, contradicting "never raised above the configured sea
level". -/
theorem effectiveSeaLevel_counterexample :
    (1/100 : ℚ) < effectiveSeaLevel (fun _ => 0) 4 (1/100) (some (1/2)) := by
  with_unfolding_all decide

set_option maxHeartbeats 400000 in
/-- C8 (amended): when `minLandRatio` is unset, non-positive, or the land
count already meets the target, the configured sea level is used unchanged;
otherwise the effective sea level is
`max 0.05 (min seaLevel (sample[cutIdx] - 0.001))` — the sampled percentile
minus `0.001`, capped above by the configured sea level and then floored at
the `0.05` safety minimum (in particular it is at least `0.05`, the sample
index is in range, and in every case the result never exceeds
`max 0.05 seaLevel`, so it exceeds the configured sea level only when that
level is below the `0.05` floor). -/
theorem effectiveSeaLevel_spec (elevation : ℕ → ℚ) (total : ℕ) (seaLevel : ℚ)
    (r : ℚ) (hr1 : r ≤ 1) :
    effectiveSeaLevel elevation total seaLevel none = seaLevel ∧
    (¬ (0 < r ∧ (landCount elevation total seaLevel : ℤ) < targetLand total r) →
      effectiveSeaLevel elevation total seaLevel (some r) = seaLevel) ∧
    ((0 < r ∧ (landCount elevation total seaLevel : ℤ) < targetLand total r) →
      effectiveSeaLevel elevation total seaLevel (some r) =
        max (1/20) (min seaLevel
          ((sampleSorted elevation total).getD (cutIdx total r) 0 - 1/1000)) ∧
      1/20 ≤ effectiveSeaLevel elevation total seaLevel (some r) ∧
      cutIdx total r < (sampleSorted elevation total).length) ∧
    effectiveSeaLevel elevation total seaLevel (some r) ≤ max (1/20) seaLevel := by
  have hEdef : effectiveSeaLevel elevation total seaLevel (some r) =
      if 0 < r then
        if (landCount elevation total seaLevel : ℤ) < targetLand total r then
          if min seaLevel ((sampleSorted elevation total).getD (cutIdx total r) 0 -
              1/1000) < 1/20 then 1/20
          else min seaLevel ((sampleSorted elevation total).getD (cutIdx total r) 0 -
            1/1000)
        else seaLevel
      else seaLevel := rfl
  by_cases hr : 0 < r
  · by_cases hlc : (landCount elevation total seaLevel : ℤ) < targetLand total r
    · have hbranch : effectiveSeaLevel elevation total seaLevel (some r) =
          max (1/20) (min seaLevel
            ((sampleSorted elevation total).getD (cutIdx total r) 0 - 1/1000)) := by
        rw [hEdef, if_pos hr, if_pos hlc]
        by_cases hf : min seaLevel
            ((sampleSorted elevation total).getD (cutIdx total r) 0 - 1/1000) < 1/20
        · rw [if_pos hf]; exact (max_eq_left (le_of_lt hf)).symm
        · rw [if_neg hf]; exact (max_eq_right (le_of_not_lt hf)).symm
      have htot : 1 ≤ total := by
        have h1 : (1 : ℤ) ≤ targetLand total r := by
          have := Int.ofNat_nonneg (landCount elevation total seaLevel)
          omega
        have h2 : (1 : ℚ) ≤ (total : ℚ) * r := by
          exact_mod_cast Int.le_floor.mp h1
        have h3 : (total : ℚ) * r ≤ (total : ℚ) := by
          nlinarith [Nat.cast_nonneg (α := ℚ) total]
        have h4 : (1 : ℚ) ≤ (total : ℚ) := le_trans h2 h3
        exact_mod_cast h4
      have hsz : 1 ≤ (total + 3) / 4 := by omega
      have hcut : cutIdx total r < (sampleSorted elevation total).length := by
        have hlen : (sampleSorted elevation total).length = (total + 3) / 4 := by
          rw [sampleSorted, List.length_mergeSort, List.length_map, List.length_range]
        have hflt : ⌊((((total + 3) / 4 : ℕ) : ℚ)) * (1 - r)⌋ <
            (((total + 3) / 4 : ℕ) : ℤ) := by
          have hn : (1 : ℚ) ≤ (((total + 3) / 4 : ℕ) : ℚ) := by exact_mod_cast hsz
          have hpos : 0 < (((total + 3) / 4 : ℕ) : ℚ) * r :=
            mul_pos (lt_of_lt_of_le one_pos hn) hr
          refine Int.floor_lt.mpr ?_
          rw [Int.cast_natCast]
          nlinarith [hpos]
        rw [hlen, cutIdx]
        omega
      refine ⟨rfl, fun hc => absurd ⟨hr, hlc⟩ hc, fun _ => ⟨hbranch, ?_, hcut⟩, ?_⟩
      · rw [hbranch]; exact le_max_left _ _
      · rw [hbranch]
        exact max_le_max (le_refl _) (min_le_left _ _)
    · have hkeep : effectiveSeaLevel elevation total seaLevel (some r) = seaLevel := by
        rw [hEdef, if_pos hr, if_neg hlc]
      refine ⟨rfl, fun _ => hkeep, fun hc => absurd hc.2 hlc, ?_⟩
      rw [hkeep]; exact le_max_right _ _
  · have hkeep : effectiveSeaLevel elevation total seaLevel (some r) = seaLevel := by
      rw [hEdef, if_neg hr]
    refine ⟨rfl, fun _ => hkeep, fun hc => absurd hc.1 hr, ?_⟩
    rw [hkeep]; exact le_max_right _ _

theorem effectiveSeaLevel_spec_witness :
    ((1/2 : ℚ) ≤ 1) ∧
    (effectiveSeaLevel (fun _ => 0) 4 (1/100) none = 1/100 ∧
    (¬ ((0 : ℚ) < 1/2 ∧
        (landCount (fun _ => 0) 4 (1/100) : ℤ) < targetLand 4 (1/2)) →
      effectiveSeaLevel (fun _ => 0) 4 (1/100) (some (1/2)) = 1/100) ∧
    (((0 : ℚ) < 1/2 ∧
        (landCount (fun _ => 0) 4 (1/100) : ℤ) < targetLand 4 (1/2)) →
      effectiveSeaLevel (fun _ => 0) 4 (1/100) (some (1/2)) =
        max (1/20) (min (1/100)
          ((sampleSorted (fun _ => 0) 4).getD (cutIdx 4 (1/2)) 0 - 1/1000)) ∧
      1/20 ≤ effectiveSeaLevel (fun _ => 0) 4 (1/100) (some (1/2)) ∧
      cutIdx 4 (1/2) < (sampleSorted (fun _ => 0) 4).length) ∧
    effectiveSeaLevel (fun _ => 0) 4 (1/100) (some (1/2)) ≤ max (1/20) (1/100)) :=
  ⟨by norm_num, effectiveSeaLevel_spec (fun _ => 0) 4 (1/100) (1/2) (by norm_num)⟩

/-- `TerrainGenerator.sampleLayer`: fractal Brownian motion over an
abstract noise source.  The fold state is
`(amplitude, frequency, value, maxAmplitude)`; the loop runs
`config.octaves` times (zero times when octaves ≤ 0), and the result is
`value / maxAmplitude` when `maxAmplitude > 0`, else `0` — there is no
parameter validation. -/
def sampleLayer (noise : ℚ → ℚ → ℚ) (scale persistence lacunarity : ℚ)
    (octaves : ℤ) (x y : ℕ) : ℚ :=
  let s := (List.range octaves.toNat).foldl
    (fun (acc : ℚ × ℚ × ℚ × ℚ) _ =>
      (acc.1 * persistence,
       acc.2.1 * lacunarity,
       acc.2.2.1 + (noise ((x : ℚ) * acc.2.1) ((y : ℚ) * acc.2.1) + 1) * (1/2) * acc.1,
       acc.2.2.2 + acc.1))
    (1, scale, 0, 0)
  if 0 < s.2.2.2 then s.2.2.1 / s.2.2.2 else 0

/-- `TerrainGenerator.islandFalloff` (with `Math.sqrt` abstract). -/
def islandFalloff (rsqrt : ℚ → ℚ) (x y width height : ℕ) : ℚ :=
  max 0 (1 - rsqrt ((((x : ℚ) / (width : ℚ)) * 2 - 1) * (((x : ℚ) / (width : ℚ)) * 2 - 1) +
    (((y : ℚ) / (height : ℚ)) * 2 - 1) * (((y : ℚ) / (height : ℚ)) * 2 - 1)))

/-- One cell of `TerrainGenerator.generateElevationField` (`Math.pow`
abstracted as `rpow`). -/
def elevationAt (noiseE noiseC noiseO : ℚ → ℚ → ℚ) (rpow : ℚ → ℚ → ℚ)
    (rsqrt : ℚ → ℚ) (config : TerrainConfig) (x y : ℕ) : ℚ :=
  let base := sampleLayer noiseE config.scale config.persistence config.lacunarity
    config.octaves x y
  let continent := sampleLayer noiseC config.continentScale (6/10) 2 2 x y
  let ocean := sampleLayer noiseO config.oceanScale (6/10) 2 2 x y
  let raw := clamp01 (base * (1 - config.continentStrength) +
    continent * config.continentStrength - ocean * config.oceanStrength)
  let elevation := rpow raw (config.redistributionPower.getD (14/10))
  if config.islandMode then
    elevation * islandFalloff rsqrt x y config.width config.height
  else elevation

/-- `TerrainGenerator.generateElevationField`, row-major: the worker calls
this unconditionally on the received config — no check of scale, octaves,
width or height happens anywhere before (or after) the grid is built. -/
def generateElevationField (noiseE noiseC noiseO : ℚ → ℚ → ℚ) (rpow : ℚ → ℚ → ℚ)
    (rsqrt : ℚ → ℚ) (config : TerrainConfig) : List ℚ :=
  (List.range config.height).flatMap fun y =>
    (List.range config.width).map fun x =>
      elevationAt noiseE noiseC noiseO rpow rsqrt config x y

/-- C9 counterexample: a configuration that is invalid per the claim
(scale = 0 AND octave count = 0) does not fail fast — the pipeline's first
step happily allocates and returns the full width·height elevation grid. -/
theorem elevationPipeline_counterexample :
    (generateElevationField (fun _ _ => 1/2) (fun _ _ => 1/2) (fun _ _ => 1/2)
      (fun b _ => b) (fun q => q)
      ⟨0, 0, 0, 0, 0, false, 2, 2, 0, 0, 0, 0, none⟩).length = 2 * 2 := by
  with_unfolding_all decide

/-- C9 (amended): there is no configuration validation at all — for any
config with a non-positive octave count, `sampleLayer` silently returns
`0` for every cell (its `maxAmplitude > 0` guard fails) and the elevation
grid of the configured `width * height` size is still produced. -/
theorem generateElevationField_no_validation (noiseE noiseC noiseO : ℚ → ℚ → ℚ)
    (rpow : ℚ → ℚ → ℚ) (rsqrt : ℚ → ℚ) (config : TerrainConfig)
    (hoct : config.octaves ≤ 0) :
    (generateElevationField noiseE noiseC noiseO rpow rsqrt config).length =
      config.width * config.height ∧
    ∀ x y : ℕ, sampleLayer noiseE config.scale config.persistence
      config.lacunarity config.octaves x y = 0 := by
  constructor
  · rw [generateElevationField, List.length_flatMap]
    simp only [Function.comp_def, List.length_map, List.length_range, List.map_const',
      List.sum_replicate, smul_eq_mul]
    exact Nat.mul_comm config.height config.width
  · intro x y
    have h0 : config.octaves.toNat = 0 := by omega
    simp [sampleLayer, h0]

theorem generateElevationField_no_validation_witness :
    ((⟨0, 0, 0, 0, 0, false, 3, 2, 0, 0, 0, 0, none⟩ : TerrainConfig).octaves ≤ 0) ∧
    ((generateElevationField (fun _ _ => 1/2) (fun _ _ => 1/2) (fun _ _ => 1/2)
        (fun b _ => b) (fun q => q)
        ⟨0, 0, 0, 0, 0, false, 3, 2, 0, 0, 0, 0, none⟩).length =
      (⟨0, 0, 0, 0, 0, false, 3, 2, 0, 0, 0, 0, none⟩ : TerrainConfig).width *
        (⟨0, 0, 0, 0, 0, false, 3, 2, 0, 0, 0, 0, none⟩ : TerrainConfig).height ∧
    ∀ x y : ℕ, sampleLayer (fun _ _ => 1/2)
      (⟨0, 0, 0, 0, 0, false, 3, 2, 0, 0, 0, 0, none⟩ : TerrainConfig).scale
      (⟨0, 0, 0, 0, 0, false, 3, 2, 0, 0, 0, 0, none⟩ : TerrainConfig).persistence
      (⟨0, 0, 0, 0, 0, false, 3, 2, 0, 0, 0, 0, none⟩ : TerrainConfig).lacunarity
      (⟨0, 0, 0, 0, 0, false, 3, 2, 0, 0, 0, 0, none⟩ : TerrainConfig).octaves x y = 0) :=
  ⟨by decide, generateElevationField_no_validation (fun _ _ => 1/2) (fun _ _ => 1/2)
    (fun _ _ => 1/2) (fun b _ => b) (fun q => q)
    ⟨0, 0, 0, 0, 0, false, 3, 2, 0, 0, 0, 0, none⟩ (by decide)⟩

inductive StrategicType where
  | river_crossing
  | mountain_pass
  | strait
  | peninsula
  deriving DecidableEq, Repr

/-- A strategic point (`{ x, y, type, value }`). -/
structure StrategicPoint where
  x : ℕ
  y : ℕ
  type : StrategicType
  value : ℤ
  deriving DecidableEq, Repr

structure StrategicConfig where
  riverCrossingRadius : ℕ
  mountainPassRadius : ℕ
  straitMaxWidth : ℕ
  peninsulaMinRatio : ℚ
  peninsulaRadius : ℕ
  deriving Repr

/-- JavaScript `Math.round` (round half toward positive infinity). -/
def jsRound (q : ℚ) : ℤ := ⌊q + 1/2⌋

/-- The detector's precomputed land mask: `elevation[i] > seaLevel`. -/
def strategicIsLand (elevation : ℕ → ℚ) (seaLevel : ℚ) (i : ℕ) : Bool :=
  decide (seaLevel < elevation i)

/-- `Math.ceil(a / b)` on naturals. -/
def ceilDiv (a b : ℕ) : ℕ := (a + b - 1) / b

/-- The `(bestPerCell, bestIndex)` spacing grids; `bestIndex.fill(-1)`. -/
def bestInit : (ℕ → ℚ) × (ℕ → ℤ) := (fun _ => 0, fun _ => -1)

/-- `if (bestIndex[ci] === -1 || score > bestPerCell[ci])` record the
candidate `i` with its `score`. -/
def updateBest (best : (ℕ → ℚ) × (ℕ → ℤ)) (ci : ℕ) (score : ℚ) (i : ℕ) :
    (ℕ → ℚ) × (ℕ → ℤ) :=
  if best.2 ci = -1 ∨ best.1 ci < score then
    (fun n => if n = ci then score else best.1 n,
     fun n => if n = ci then (i : ℤ) else best.2 n)
  else best

/-- The `(x, y)` cells visited by
`for (y = y0; y < yB; y += ys) for (x = x0; x < xB; x += xs)`. -/
def scanCells (x0 xB xs y0 yB ys : ℕ) : List (ℕ × ℕ) :=
  (List.range' y0 ((yB - y0 + ys - 1) / ys) ys).flatMap fun y =>
    (List.range' x0 ((xB - x0 + xs - 1) / xs) xs).map fun x => (x, y)

/-- The emission loop shared by all four detectors: one point per spacing
cell holding a candidate, with
`value = Math.min(10, Math.max(1, Math.round(bestPerCell[ci] * mul + add)))`,
`x = idx % width`, `y = Math.floor(idx / width)`. -/
def emitPoints (width : ℕ) (t : StrategicType) (mul add : ℚ) (cells : ℕ)
    (best : (ℕ → ℚ) × (ℕ → ℤ)) : List StrategicPoint :=
  (List.range cells).filterMap fun ci =>
    if best.2 ci = -1 then none
    else some ⟨(best.2 ci).toNat % width, (best.2 ci).toNat / width, t,
      min 10 (max 1 (jsRound (best.1 ci * mul + add)))⟩

/-- `findRiverCrossings`: interior river tiles on land with land on
opposing sides, scored by low elevation, deduplicated per spacing cell. -/
def findRiverCrossings (elevation : ℕ → ℚ) (riverMask : ℕ → Bool)
    (width height : ℕ) (seaLevel : ℚ) (config : StrategicConfig) :
    List StrategicPoint :=
  let spacing := config.riverCrossingRadius * 3
  let gridW := ceilDiv width spacing
  let gridH := ceilDiv height spacing
  let isL := strategicIsLand elevation seaLevel
  let best := (scanCells 1 (width - 1) 1 1 (height - 1) 1).foldl
    (fun best c =>
      let x := c.1
      let y := c.2
      let i := y * width + x
      if riverMask i && isL i &&
          ((isL (i - width) && isL (i + width) &&
             (!isL (i - 1) || !isL (i + 1) || riverMask (i - 1) || riverMask (i + 1))) ||
           (isL (i - 1) && isL (i + 1) &&
             (!isL (i - width) || !isL (i + width) ||
              riverMask (i - width) || riverMask (i + width)))) then
        updateBest best ((y / spacing) * gridW + (x / spacing))
          (1 - (elevation i - seaLevel) / (1 - seaLevel)) i
      else best)
    bestInit
  emitPoints width StrategicType.river_crossing 8 2 (gridW * gridH) best

/-- `findMountainPasses`: land saddle points below mountain level but near
highland level, whose strided neighbourhood is mostly higher. -/
def findMountainPasses (elevation : ℕ → ℚ) (width height : ℕ) (seaLevel : ℚ)
    (biomeConfig : BiomeConfig) (config : StrategicConfig) : List StrategicPoint :=
  let r := config.mountainPassRadius
  let spacing := r * 4
  let gridW := ceilDiv width spacing
  let gridH := ceilDiv height spacing
  let isL := strategicIsLand elevation seaLevel
  let doffs := (List.range ((2 * r) / 3 + 1)).map fun k => ((k * 3 : ℕ) : ℤ) - r
  let best := (scanCells r (width - r) 2 r (height - r) 2).foldl
    (fun best c =>
      let x := c.1
      let y := c.2
      let i := y * width + x
      if isL i && decide (elevation i < biomeConfig.mountainElevation) &&
          !decide (elevation i < biomeConfig.highlandElevation * (85/100)) then
        let sampled := (doffs ×ˢ doffs).filter fun o =>
          !(decide (o.2 = 0) && decide (o.1 = 0)) &&
          decide (0 ≤ (x : ℤ) + o.2) && decide (0 ≤ (y : ℤ) + o.1) &&
          decide ((x : ℤ) + o.2 < width) && decide ((y : ℤ) + o.1 < height)
        let higher := sampled.filter fun o =>
          decide (elevation (((y : ℤ) + o.1).toNat * width + ((x : ℤ) + o.2).toNat) >
            elevation i + 3/100)
        if sampled.length = 0 then best
        else
          let ratio := (higher.length : ℚ) / (sampled.length : ℚ)
          if decide (ratio < 55/100) then best
          else updateBest best ((y / spacing) * gridW + (x / spacing))
            (ratio * (elevation i / biomeConfig.mountainElevation)) i
      else best)
    bestInit
  emitPoints width StrategicType.mountain_pass 10 0 (gridW * gridH) best

/-- `findStraits`: water cells with land within `straitMaxWidth` on both
sides, horizontally then vertically, narrower scoring higher. -/
def findStraits (elevation : ℕ → ℚ) (width height : ℕ) (seaLevel : ℚ)
    (config : StrategicConfig) : List StrategicPoint :=
  let maxW := config.straitMaxWidth
  let spacing := maxW * 4
  let gridW := ceilDiv width spacing
  let gridH := ceilDiv height spacing
  let isL := strategicIsLand elevation seaLevel
  let bestH := (scanCells 1 (width - 1) 2 maxW (height - maxW) 2).foldl
    (fun best c =>
      let x := c.1
      let y := c.2
      let i := y * width + x
      if isL i then best
      else
        let northDist := ((List.range' 1 maxW).find? fun d =>
          decide (d ≤ y) && isL ((y - d) * width + x)).getD 0
        let southDist := ((List.range' 1 maxW).find? fun d =>
          decide (y + d < height) && isL ((y + d) * width + x)).getD 0
        if northDist = 0 ∨ southDist = 0 then best
        else
          if decide ((1 : ℚ) - ((northDist + southDist : ℕ) : ℚ) /
              ((maxW * 2 : ℕ) : ℚ) ≤ 0) then best
          else updateBest best ((y / spacing) * gridW + (x / spacing))
            (1 - ((northDist + southDist : ℕ) : ℚ) / ((maxW * 2 : ℕ) : ℚ)) i)
    bestInit
  let bestV := (scanCells maxW (width - maxW) 2 1 (height - 1) 2).foldl
    (fun best c =>
      let x := c.1
      let y := c.2
      let i := y * width + x
      if isL i then best
      else
        let westDist := ((List.range' 1 maxW).find? fun d =>
          decide (d ≤ x) && isL (y * width + (x - d))).getD 0
        let eastDist := ((List.range' 1 maxW).find? fun d =>
          decide (x + d < width) && isL (y * width + (x + d))).getD 0
        if westDist = 0 ∨ eastDist = 0 then best
        else
          if decide ((1 : ℚ) - ((westDist + eastDist : ℕ) : ℚ) /
              ((maxW * 2 : ℕ) : ℚ) ≤ 0) then best
          else updateBest best ((y / spacing) * gridW + (x / spacing))
            (1 - ((westDist + eastDist : ℕ) : ℚ) / ((maxW * 2 : ℕ) : ℚ)) i)
    bestH
  emitPoints width StrategicType.strait 8 2 (gridW * gridH) bestV

/-- `findPeninsulas`: land cells whose strided disc neighbourhood is mostly
water but with enough adjacent land to not be an island. -/
def findPeninsulas (elevation : ℕ → ℚ) (width height : ℕ) (seaLevel : ℚ)
    (config : StrategicConfig) : List StrategicPoint :=
  let r := config.peninsulaRadius
  let spacing := r * 5
  let gridW := ceilDiv width spacing
  let gridH := ceilDiv height spacing
  let isL := strategicIsLand elevation seaLevel
  let doffs := (List.range ((2 * r) / 2 + 1)).map fun k => ((k * 2 : ℕ) : ℤ) - r
  let noffs := (List.range 7).map fun k => ((k : ℤ) - 3)
  let best := (scanCells r (width - r) 3 r (height - r) 3).foldl
    (fun best c =>
      let x := c.1
      let y := c.2
      let i := y * width + x
      if isL i then
        let sampled := (doffs ×ˢ doffs).filter fun o =>
          decide (o.2 * o.2 + o.1 * o.1 ≤ (r : ℤ) * r) &&
          decide (0 ≤ (x : ℤ) + o.2) && decide (0 ≤ (y : ℤ) + o.1) &&
          decide ((x : ℤ) + o.2 < width) && decide ((y : ℤ) + o.1 < height)
        let water := sampled.filter fun o =>
          !isL (((y : ℤ) + o.1).toNat * width + ((x : ℤ) + o.2).toNat)
        if sampled.length = 0 then best
        else
          if decide ((water.length : ℚ) / (sampled.length : ℚ) <
              config.peninsulaMinRatio) then best
          else
            let nearLand := ((noffs ×ˢ noffs).filter fun o =>
              !(decide (o.2 = 0) && decide (o.1 = 0)) &&
              decide (0 ≤ (x : ℤ) + o.2) && decide (0 ≤ (y : ℤ) + o.1) &&
              decide ((x : ℤ) + o.2 < width) && decide ((y : ℤ) + o.1 < height) &&
              isL (((y : ℤ) + o.1).toNat * width + ((x : ℤ) + o.2).toNat)).length
            if nearLand < 4 then best
            else updateBest best ((y / spacing) * gridW + (x / spacing))
              ((water.length : ℚ) / (sampled.length : ℚ)) i
      else best)
    bestInit
  emitPoints width StrategicType.peninsula 10 0 (gridW * gridH) best

/-- `detectStrategicPoints`: the four detector passes in push order (the
per-tile `valueMap` by-product is omitted; the claim concerns `points`). -/
def detectStrategicPoints (elevation : ℕ → ℚ) (riverMask : ℕ → Bool)
    (width height : ℕ) (seaLevel : ℚ) (biomeConfig : BiomeConfig)
    (config : StrategicConfig) : List StrategicPoint :=
  findRiverCrossings elevation riverMask width height seaLevel config ++
  findMountainPasses elevation width height seaLevel biomeConfig config ++
  findStraits elevation width height seaLevel config ++
  findPeninsulas elevation width height seaLevel config

theorem emitPoints_value_range (width : ℕ) (t : StrategicType) (mul add : ℚ)
    (cells : ℕ) (best : (ℕ → ℚ) × (ℕ → ℤ)) :
    ∀ p ∈ emitPoints width t mul add cells best, 1 ≤ p.value ∧ p.value ≤ 10 := by
  intro p hp
  simp only [emitPoints, List.mem_filterMap, List.mem_range] at hp
  obtain ⟨ci, _, hp⟩ := hp
  by_cases hb : best.2 ci = -1
  · rw [if_pos hb] at hp
    exact Option.noConfusion hp
  · rw [if_neg hb] at hp
    obtain rfl := (Option.some.inj hp).symm
    exact ⟨le_min (by norm_num) (le_max_left _ _), min_le_left _ _⟩

/-- C6: every strategic point emitted by `detectStrategicPoints` — from all
four detectors (river crossing, mountain pass, strait, peninsula) — has an
integer value in `[1, 10]`, for every elevation field, river mask and
configuration: each detector's emission clamps its score with
`min(10, max(1, round(...)))`. -/
theorem detectStrategicPoints_value_range (elevation : ℕ → ℚ)
    (riverMask : ℕ → Bool) (width height : ℕ) (seaLevel : ℚ)
    (biomeConfig : BiomeConfig) (config : StrategicConfig) :
    ∀ p ∈ detectStrategicPoints elevation riverMask width height seaLevel
      biomeConfig config, 1 ≤ p.value ∧ p.value ≤ 10 := by
  intro p hp
  simp only [detectStrategicPoints, List.mem_append] at hp
  rcases hp with ((hp | hp) | hp) | hp
  · simp only [findRiverCrossings] at hp
    exact emitPoints_value_range _ _ _ _ _ _ p hp
  · simp only [findMountainPasses] at hp
    exact emitPoints_value_range _ _ _ _ _ _ p hp
  · simp only [findStraits] at hp
    exact emitPoints_value_range _ _ _ _ _ _ p hp
  · simp only [findPeninsulas] at hp
    exact emitPoints_value_range _ _ _ _ _ _ p hp

theorem detectStrategicPoints_value_range_witness :
    ((⟨1, 2, StrategicType.strait, 6⟩ : StrategicPoint) ∈
      detectStrategicPoints (fun i => if i = 4 ∨ i = 10 then 1 else 0)
        (fun _ => false) 3 6 0 ⟨0, 0, 1/2, 0, 0, 0, 0⟩ ⟨1, 1, 2, 1/2, 1⟩) ∧
    1 ≤ (⟨1, 2, StrategicType.strait, 6⟩ : StrategicPoint).value ∧
    (⟨1, 2, StrategicType.strait, 6⟩ : StrategicPoint).value ≤ 10 :=
  ⟨by with_unfolding_all decide,
   detectStrategicPoints_value_range (fun i => if i = 4 ∨ i = 10 then 1 else 0)
     (fun _ => false) 3 6 0 ⟨0, 0, 1/2, 0, 0, 0, 0⟩ ⟨1, 1, 2, 1/2, 1⟩
     ⟨1, 2, StrategicType.strait, 6⟩ (by with_unfolding_all decide)⟩

/-- One dequeue step of `computeDistanceToWater`'s BFS loop: read
`distance = distances[idx]`, then conditionally discover the Right, Left,
Down, Up neighbours in source order (each only when in bounds and still
`-1`), setting them to `distance + 1` and appending them to the queue. -/
def bfsVisit (width height : ℕ) (s : (ℕ → ℤ) × List ℕ) (idx : ℕ) :
    (ℕ → ℤ) × List ℕ :=
  let d := s.1 idx
  let x := idx % width
  let y := idx / width
  let s1 := if x + 1 < width ∧ s.1 (idx + 1) = -1 then
    (fun m => if m = idx + 1 then d + 1 else s.1 m, s.2 ++ [idx + 1]) else s
  let s2 := if 1 ≤ x ∧ s1.1 (idx - 1) = -1 then
    (fun m => if m = idx - 1 then d + 1 else s1.1 m, s1.2 ++ [idx - 1]) else s1
  let s3 := if y + 1 < height ∧ s2.1 (idx + width) = -1 then
    (fun m => if m = idx + width then d + 1 else s2.1 m, s2.2 ++ [idx + width]) else s2
  if 1 ≤ y ∧ s3.1 (idx - width) = -1 then
    (fun m => if m = idx - width then d + 1 else s3.1 m, s3.2 ++ [idx - width]) else s3

/-- The `while (head < tail)` BFS loop; the queue segment `[head, tail)`
is the list.  `width * height` fuel is enough: each cell is enqueued at
most once (proved below), so the loop is never cut short. -/
def bfsLoop (width height : ℕ) : ℕ → (ℕ → ℤ) → List ℕ → (ℕ → ℤ)
  | 0, dist, _ => dist
  | _ + 1, dist, [] => dist
  | fuel + 1, dist, idx :: rest =>
    bfsLoop width height fuel (bfsVisit width height (dist, rest) idx).1
      (bfsVisit width height (dist, rest) idx).2

/-- The seeding loop: every in-range cell at or below sea level, in index
order. -/
def waterSeeds (elevation : ℕ → ℚ) (width height : ℕ) (seaLevel : ℚ) : List ℕ :=
  (List.range (width * height)).filter fun i => decide (elevation i ≤ seaLevel)

/-- The raw `distances` array after the BFS (`-1` = never reached). -/
def bfsDistance (elevation : ℕ → ℚ) (width height : ℕ) (seaLevel : ℚ) : ℕ → ℤ :=
  bfsLoop width height (width * height)
    (fun i => if elevation i ≤ seaLevel then 0 else -1)
    (waterSeeds elevation width height seaLevel)

/-- `maxDistance`: fold of `if (distances[i] > maxDistance)` starting at 1. -/
def maxWaterDistance (elevation : ℕ → ℚ) (width height : ℕ) (seaLevel : ℚ) : ℤ :=
  (List.range (width * height)).foldl
    (fun m i => if m < bfsDistance elevation width height seaLevel i then
      bfsDistance elevation width height seaLevel i else m) 1

/-- `TerrainGenerator.computeDistanceToWater`: the normalised field
`distances[i] <= 0 ? 0 : distances[i] / maxDistance`. -/
def computeDistanceToWater (elevation : ℕ → ℚ) (width height : ℕ) (seaLevel : ℚ) :
    ℕ → ℚ :=
  fun i =>
    if bfsDistance elevation width height seaLevel i ≤ 0 then 0
    else (bfsDistance elevation width height seaLevel i : ℚ) /
      (maxWaterDistance elevation width height seaLevel : ℚ)

/-- Spec-side 4-connected adjacency of in-range flat indices (same row and
one column apart, or same column and one row apart). -/
def adjacent (width height i j : ℕ) : Prop :=
  i < width * height ∧ j < width * height ∧
  ((j = i + 1 ∧ i % width + 1 < width) ∨
   (i = j + 1 ∧ j % width + 1 < width) ∨
   j = i + width ∨ i = j + width)

instance (width height i j : ℕ) : Decidable (adjacent width height i j) := by
  unfold adjacent
  infer_instance

/-- Spec-side BFS step distance relation: `reachesWater k i` holds when a
4-connected path of `k` steps leads from `i` to a cell at or below sea
level; the least such `k` is the step distance to the nearest water. -/
def reachesWater (elevation : ℕ → ℚ) (seaLevel : ℚ) (width height : ℕ) :
    ℕ → ℕ → Prop
  | 0, i => i < width * height ∧ elevation i ≤ seaLevel
  | k + 1, i => ∃ j, adjacent width height i j ∧
      reachesWater elevation seaLevel width height k j

theorem adjacent_symm {width height i j : ℕ} (h : adjacent width height i j) :
    adjacent width height j i := by
  obtain ⟨hi, hj, hc⟩ := h
  exact ⟨hj, hi, by tauto⟩

theorem reachesWater_lt (elevation : ℕ → ℚ) (seaLevel : ℚ) (width height : ℕ) :
    ∀ k i, reachesWater elevation seaLevel width height k i → i < width * height
  | 0, _, h => h.1
  | _ + 1, _, h => by obtain ⟨j, hadj, _⟩ := h; exact hadj.1

/-- Number of still-undiscovered in-range cells. -/
def undisc (width height : ℕ) (dist : ℕ → ℤ) : ℕ :=
  ((List.range (width * height)).filter fun i => decide (dist i = -1)).length

/-- BFS loop invariant on the state `(dist, queue)`. -/
structure BfsInv (elevation : ℕ → ℚ) (seaLevel : ℚ) (width height : ℕ)
    (dist : ℕ → ℤ) (q : List ℕ) : Prop where
  water0 : ∀ i, elevation i ≤ seaLevel → dist i = 0
  lb : ∀ i, -1 ≤ dist i
  qmem : ∀ i ∈ q, 0 ≤ dist i ∧ i < width * height
  reach_of : ∀ i, 0 ≤ dist i → i < width * height →
    reachesWater elevation seaLevel width height (dist i).toNat i
  sorted : List.Pairwise (fun a b => dist a ≤ dist b) q
  headB : ∀ h t, q = h :: t →
    (∀ a ∈ q, dist a ≤ dist h + 1) ∧
    (∀ j, 0 ≤ dist j → j ∉ q → dist j ≤ dist h)
  closed : ∀ i, 0 ≤ dist i → i < width * height → i ∉ q →
    ∀ j, adjacent width height j i → 0 ≤ dist j ∧ dist j ≤ dist i + 1

/-- Mid-visit invariant while the dequeued cell `idx` (with distance `D`)
is having its neighbours processed. -/
structure BfsMid (elevation : ℕ → ℚ) (seaLevel : ℚ) (width height : ℕ)
    (idx : ℕ) (D : ℤ) (dist : ℕ → ℤ) (q : List ℕ) : Prop where
  water0 : ∀ i, elevation i ≤ seaLevel → dist i = 0
  lb : ∀ i, -1 ≤ dist i
  qmem : ∀ i ∈ q, 0 ≤ dist i ∧ i < width * height
  reach_of : ∀ i, 0 ≤ dist i → i < width * height →
    reachesWater elevation seaLevel width height (dist i).toNat i
  sorted : List.Pairwise (fun a b => dist a ≤ dist b) q
  lbq : ∀ a ∈ q, D ≤ dist a
  ub : ∀ a ∈ q, dist a ≤ D + 1
  dq : ∀ j, 0 ≤ dist j → j ∉ q → j ≠ idx → dist j ≤ D
  closed : ∀ i, 0 ≤ dist i → i < width * height → i ∉ q → i ≠ idx →
    ∀ j, adjacent width height j i → 0 ≤ dist j ∧ dist j ≤ dist i + 1
  idxd : dist idx = D
  idxpos : 0 ≤ D
  idxlt : idx < width * height

theorem pairwise_of_all {α : Type} (R : α → α → Prop) :
    ∀ l : List α, (∀ a ∈ l, ∀ b ∈ l, R a b) → l.Pairwise R
  | [], _ => List.Pairwise.nil
  | a :: t, h => List.Pairwise.cons
      (fun b hb => h a (List.mem_cons_self a t) b (List.mem_cons_of_mem _ hb))
      (pairwise_of_all R t (fun x hx y hy =>
        h x (List.mem_cons_of_mem _ hx) y (List.mem_cons_of_mem _ hy)))

/-- Flipping one satisfied element of a duplicate-free list drops the
filter count by exactly one. -/
theorem filter_length_flip {l : List ℕ} (hl : l.Nodup) (n : ℕ) (hn : n ∈ l)
    (p p' : ℕ → Bool) (hpn : p n = true) (hp'n : p' n = false)
    (hagree : ∀ m ∈ l, m ≠ n → p' m = p m) :
    (l.filter p').length + 1 = (l.filter p).length := by
  induction l with
  | nil => exact absurd hn (List.not_mem_nil n)
  | cons a t ih =>
    rcases List.mem_cons.mp hn with rfl | hnt
    · rw [List.filter_cons_of_pos hpn, List.filter_cons_of_neg (by simp [hp'n])]
      have ht : t.filter p' = t.filter p := by
        apply List.filter_congr
        intro m hm
        exact hagree m (List.mem_cons_of_mem _ hm)
          (fun he => (List.nodup_cons.mp hl).1 (he ▸ hm))
      rw [ht, List.length_cons]
    · have han : a ≠ n := fun he => (List.nodup_cons.mp hl).1 (he ▸ hnt)
      have hrec := ih (List.nodup_cons.mp hl).2 hnt
        (fun m hm hmn => hagree m (List.mem_cons_of_mem _ hm) hmn)
      by_cases hpa : p a = true
      · rw [List.filter_cons_of_pos hpa, List.filter_cons_of_pos
          (by rw [hagree a (List.mem_cons_self a t) han]; exact hpa)]
        simp only [List.length_cons]
        omega
      · rw [List.filter_cons_of_neg hpa, List.filter_cons_of_neg
          (by rw [hagree a (List.mem_cons_self a t) han]; exact hpa)]
        exact hrec

theorem BfsMid.bound {elevation : ℕ → ℚ} {seaLevel : ℚ} {width height : ℕ}
    {idx : ℕ} {D : ℤ} {dist : ℕ → ℤ} {q : List ℕ}
    (hmid : BfsMid elevation seaLevel width height idx D dist q)
    (m : ℕ) (hne : m ≠ idx) (h0 : 0 ≤ dist m) : dist m ≤ D + 1 := by
  by_cases hq : m ∈ q
  · exact hmid.ub m hq
  · exact le_trans (hmid.dq m h0 hq hne) (by omega)

set_option maxHeartbeats 1000000 in
/-- One conditional neighbour-discovery stage of `bfsVisit` preserves the
mid-visit invariant, keeps `queue length + undiscovered count` constant,
never changes already-discovered cells, and leaves the target discovered
with distance at most `D + 1` whenever its bounds condition holds. -/
theorem bfsStage (elevation : ℕ → ℚ) (seaLevel : ℚ) (width height : ℕ)
    (idx : ℕ) (D : ℤ) (s : (ℕ → ℤ) × List ℕ) (cond : Prop) [Decidable cond]
    (n : ℕ) (s' : (ℕ → ℤ) × List ℕ)
    (hs' : s' = if cond ∧ s.1 n = -1 then
      ((fun m => if m = n then D + 1 else s.1 m), s.2 ++ [n]) else s)
    (hmid : BfsMid elevation seaLevel width height idx D s.1 s.2)
    (hadj : cond → adjacent width height n idx ∧ n ≠ idx) :
    BfsMid elevation seaLevel width height idx D s'.1 s'.2 ∧
    s'.2.length + undisc width height s'.1 =
      s.2.length + undisc width height s.1 ∧
    (∀ m, 0 ≤ s.1 m → s'.1 m = s.1 m) ∧
    (cond → 0 ≤ s'.1 n ∧ s'.1 n ≤ D + 1) := by
  by_cases h : cond ∧ s.1 n = -1
  · obtain ⟨hc, hdn⟩ := h
    obtain ⟨hadjn, hne⟩ := hadj hc
    rw [if_pos ⟨hc, hdn⟩] at hs'
    subst hs'
    have hD1 : (0 : ℤ) ≤ D + 1 := by have := hmid.idxpos; omega
    refine ⟨?_, ?_, ?_, ?_⟩
    · refine ⟨?_, ?_, ?_, ?_, ?_, ?_, ?_, ?_, ?_, ?_, ?_, ?_⟩
      · -- water0
        intro i hw
        have h0 := hmid.water0 i hw
        show (if i = n then D + 1 else s.1 i) = 0
        by_cases him : i = n
        · rw [him] at h0
          omega
        · rw [if_neg him]
          exact h0
      · -- lb
        intro i
        show (-1 : ℤ) ≤ if i = n then D + 1 else s.1 i
        by_cases him : i = n
        · rw [if_pos him]; omega
        · rw [if_neg him]; exact hmid.lb i
      · -- qmem
        intro i hi
        rcases List.mem_append.mp hi with hi | hi
        · obtain ⟨h0, hlt⟩ := hmid.qmem i hi
          have hin : i ≠ n := fun he => by rw [he, hdn] at h0; omega
          show 0 ≤ (if i = n then D + 1 else s.1 i) ∧ i < width * height
          rw [if_neg hin]
          exact ⟨h0, hlt⟩
        · have hin : i = n := by simpa using hi
          show 0 ≤ (if i = n then D + 1 else s.1 i) ∧ i < width * height
          rw [if_pos hin, hin]
          exact ⟨hD1, hadjn.1⟩
      · -- reach_of
        intro i h0 hlt
        by_cases him : i = n
        · show reachesWater elevation seaLevel width height
            ((if i = n then D + 1 else s.1 i).toNat) i
          rw [if_pos him]
          have htn : (D + 1).toNat = D.toNat + 1 := by have := hmid.idxpos; omega
          rw [htn, him]
          have hri := hmid.reach_of idx (by rw [hmid.idxd]; exact hmid.idxpos)
            hmid.idxlt
          rw [hmid.idxd] at hri
          exact ⟨idx, hadjn, hri⟩
        · show reachesWater elevation seaLevel width height
            ((if i = n then D + 1 else s.1 i).toNat) i
          rw [if_neg him]
          refine hmid.reach_of i ?_ hlt
          have := h0
          simp only [if_neg him] at this
          exact this
      · -- sorted
        refine List.pairwise_append.mpr ⟨?_, List.pairwise_singleton _ _, ?_⟩
        · refine List.Pairwise.imp_of_mem ?_ hmid.sorted
          intro a b ha hb hab
          have h0a : 0 ≤ s.1 a := (hmid.qmem a ha).1
          have h0b : 0 ≤ s.1 b := (hmid.qmem b hb).1
          have hna : a ≠ n := fun he => by rw [he, hdn] at h0a; omega
          have hnb : b ≠ n := fun he => by rw [he, hdn] at h0b; omega
          show (if a = n then D + 1 else s.1 a) ≤ (if b = n then D + 1 else s.1 b)
          rw [if_neg hna, if_neg hnb]
          exact hab
        · intro a ha b hb
          have hbn : b = n := by simpa using hb
          have h0a : 0 ≤ s.1 a := (hmid.qmem a ha).1
          have hna : a ≠ n := fun he => by rw [he, hdn] at h0a; omega
          show (if a = n then D + 1 else s.1 a) ≤ (if b = n then D + 1 else s.1 b)
          rw [if_neg hna, if_pos hbn]
          exact hmid.ub a ha
      · -- lbq
        intro a ha
        rcases List.mem_append.mp ha with ha | ha
        · have h0a : 0 ≤ s.1 a := (hmid.qmem a ha).1
          have hna : a ≠ n := fun he => by rw [he, hdn] at h0a; omega
          show D ≤ (if a = n then D + 1 else s.1 a)
          rw [if_neg hna]
          exact hmid.lbq a ha
        · have han : a = n := by simpa using ha
          show D ≤ (if a = n then D + 1 else s.1 a)
          rw [if_pos han]
          omega
      · -- ub
        intro a ha
        rcases List.mem_append.mp ha with ha | ha
        · have h0a : 0 ≤ s.1 a := (hmid.qmem a ha).1
          have hna : a ≠ n := fun he => by rw [he, hdn] at h0a; omega
          show (if a = n then D + 1 else s.1 a) ≤ D + 1
          rw [if_neg hna]
          exact hmid.ub a ha
        · have han : a = n := by simpa using ha
          show (if a = n then D + 1 else s.1 a) ≤ D + 1
          rw [if_pos han]
      · -- dq
        intro j h0 hj hjne
        have hjn : j ≠ n := fun he => hj (by
          rw [he]; exact List.mem_append_right _ (List.mem_singleton_self n))
        have hjq : j ∉ s.2 := fun he => hj (List.mem_append_left _ he)
        show (if j = n then D + 1 else s.1 j) ≤ D
        rw [if_neg hjn]
        refine hmid.dq j ?_ hjq hjne
        have := h0
        simp only [if_neg hjn] at this
        exact this
      · -- closed
        intro i h0 hlt hiq hine j hadjj
        have hin : i ≠ n := fun he => hiq (by
          rw [he]; exact List.mem_append_right _ (List.mem_singleton_self n))
        have hiq2 : i ∉ s.2 := fun he => hiq (List.mem_append_left _ he)
        have h0i : 0 ≤ s.1 i := by
          have := h0
          simp only [if_neg hin] at this
          exact this
        obtain ⟨h0j, hubj⟩ := hmid.closed i h0i hlt hiq2 hine j hadjj
        have hjn : j ≠ n := fun he => by rw [he, hdn] at h0j; omega
        show 0 ≤ (if j = n then D + 1 else s.1 j) ∧
          (if j = n then D + 1 else s.1 j) ≤ (if i = n then D + 1 else s.1 i) + 1
        rw [if_neg hjn, if_neg hin]
        exact ⟨h0j, hubj⟩
      · -- idxd
        show (if idx = n then D + 1 else s.1 idx) = D
        rw [if_neg (fun he => hne he.symm)]
        exact hmid.idxd
      · exact hmid.idxpos
      · exact hmid.idxlt
    · -- count
      show (s.2 ++ [n]).length + undisc width height
        (fun m => if m = n then D + 1 else s.1 m) =
        s.2.length + undisc width height s.1
      have hflip := filter_length_flip (List.nodup_range (width * height)) n
        (List.mem_range.mpr hadjn.1)
        (fun i => decide (s.1 i = -1))
        (fun i => decide ((if i = n then D + 1 else s.1 i) = -1))
        (by simp [hdn])
        (by simp only [if_pos rfl]; simp; omega)
        (fun m _ hmn => by simp only [if_neg hmn])
      simp only [undisc, List.length_append, List.length_singleton]
      omega
    · -- already-discovered cells unchanged
      intro m h0
      have hmn : m ≠ n := fun he => by rw [he, hdn] at h0; omega
      show (if m = n then D + 1 else s.1 m) = s.1 m
      rw [if_neg hmn]
    · -- the target is discovered within D + 1
      intro _
      show 0 ≤ (if n = n then D + 1 else s.1 n) ∧
        (if n = n then D + 1 else s.1 n) ≤ D + 1
      rw [if_pos rfl]
      exact ⟨hD1, le_refl _⟩
  · rw [if_neg h] at hs'
    rw [hs']
    refine ⟨hmid, rfl, fun m _ => rfl, ?_⟩
    intro hc
    have hdn : s.1 n ≠ -1 := fun he => h ⟨hc, he⟩
    have h0 : 0 ≤ s.1 n := by have := hmid.lb n; omega
    exact ⟨h0, hmid.bound n (hadj hc).2 h0⟩

theorem width_pos_of_lt {width height idx : ℕ} (h : idx < width * height) :
    0 < width := by
  rcases Nat.eq_zero_or_pos width with hw | hw
  · rw [hw, Nat.zero_mul] at h
    omega
  · exact hw

theorem div_lt_height {width height idx : ℕ} (h : idx < width * height) :
    idx / width < height := by
  exact Nat.div_lt_of_lt_mul h

theorem adj_right (width height idx : ℕ) (hidx : idx < width * height)
    (hx : idx % width + 1 < width) : adjacent width height (idx + 1) idx := by
  have hdm := Nat.div_add_mod idx width
  have hy := div_lt_height hidx
  have hlt := gridIdx_lt width height (idx % width + 1) (idx / width) hx hy
  have hcomm : width * (idx / width) = (idx / width) * width := Nat.mul_comm _ _
  exact ⟨by omega, hidx, Or.inr (Or.inl ⟨rfl, hx⟩)⟩

theorem adj_left (width height idx : ℕ) (hidx : idx < width * height)
    (hx : 1 ≤ idx % width) : adjacent width height (idx - 1) idx := by
  have hdm := Nat.div_add_mod idx width
  have hw := width_pos_of_lt hidx
  have hmlt : idx % width < width := Nat.mod_lt idx hw
  have hcomm : width * (idx / width) = (idx / width) * width := Nat.mul_comm _ _
  have hmod : (idx - 1) % width = idx % width - 1 := by
    have he : idx - 1 = (idx / width) * width + (idx % width - 1) := by omega
    rw [he, gridIdx_mod width (idx % width - 1) (idx / width) (by omega)]
  refine ⟨by omega, hidx, Or.inl ⟨by omega, ?_⟩⟩
  rw [hmod]
  omega

theorem adj_down (width height idx : ℕ) (hidx : idx < width * height)
    (hy : idx / width + 1 < height) : adjacent width height (idx + width) idx := by
  have hdm := Nat.div_add_mod idx width
  have hw := width_pos_of_lt hidx
  have hmlt : idx % width < width := Nat.mod_lt idx hw
  have hlt := gridIdx_lt width height (idx % width) (idx / width + 1) hmlt (by omega)
  have hcomm : width * (idx / width) = (idx / width) * width := Nat.mul_comm _ _
  have hexp : (idx / width + 1) * width + idx % width = idx + width := by
    have : (idx / width + 1) * width = idx / width * width + width := by ring
    omega
  refine ⟨by omega, hidx, Or.inr (Or.inr (Or.inr rfl))⟩

theorem adj_up (width height idx : ℕ) (hidx : idx < width * height)
    (hy : 1 ≤ idx / width) : adjacent width height (idx - width) idx := by
  have hdm := Nat.div_add_mod idx width
  have hw := width_pos_of_lt hidx
  have hwle : width ≤ idx := by
    have : width * 1 ≤ width * (idx / width) := Nat.mul_le_mul_left width hy
    omega
  refine ⟨by omega, hidx, Or.inr (Or.inr (Or.inl (by omega)))⟩

/-- Any grid neighbour of `idx` is one of the four targets `bfsVisit`
examines, with the matching bounds guard true. -/
theorem adjacent_to_cases (width height idx j : ℕ)
    (h : adjacent width height j idx) :
    (j = idx + 1 ∧ idx % width + 1 < width) ∨
    (j = idx - 1 ∧ 1 ≤ idx % width) ∨
    (j = idx + width ∧ idx / width + 1 < height) ∨
    (j = idx - width ∧ 1 ≤ idx / width) := by
  obtain ⟨hj, hi, hc⟩ := h
  have hw := width_pos_of_lt hi
  have hdmi := Nat.div_add_mod idx width
  have hdmj := Nat.div_add_mod j width
  have hcommi : width * (idx / width) = (idx / width) * width := Nat.mul_comm _ _
  have hcommj : width * (j / width) = (j / width) * width := Nat.mul_comm _ _
  rcases hc with ⟨h1, h2⟩ | ⟨h1, h2⟩ | h1 | h1
  · -- idx = j + 1, j not at right edge → j = idx - 1
    refine Or.inr (Or.inl ⟨by omega, ?_⟩)
    have he : idx = (j / width) * width + (j % width + 1) := by omega
    have := gridIdx_mod width (j % width + 1) (j / width) h2
    rw [← he] at this
    omega
  · exact Or.inl ⟨h1, h2⟩
  · -- idx = j + width → j = idx - width
    refine Or.inr (Or.inr (Or.inr ⟨by omega, ?_⟩))
    have hwle : width ≤ idx := by omega
    rw [Nat.one_le_div_iff hw]
    exact hwle
  · -- j = idx + width → row below exists
    refine Or.inr (Or.inr (Or.inl ⟨h1, ?_⟩))
    have hcomm : width * (idx / width) = (idx / width) * width := Nat.mul_comm _ _
    have hlt : (idx / width + 1) * width + idx % width < width * height := by
      have : (idx / width + 1) * width = idx / width * width + width := by ring
      omega
    have hmlt : idx % width < width := Nat.mod_lt idx hw
    by_contra hcon
    have hge : height ≤ idx / width + 1 := by omega
    have : width * height ≤ width * (idx / width + 1) :=
      Nat.mul_le_mul_left width hge
    have hx : width * (idx / width + 1) = (idx / width + 1) * width :=
      Nat.mul_comm _ _
    omega

theorem bfsMid_to_inv (elevation : ℕ → ℚ) (seaLevel : ℚ) (width height : ℕ)
    (idx : ℕ) (D : ℤ) (d : ℕ → ℤ) (q : List ℕ)
    (hmid : BfsMid elevation seaLevel width height idx D d q)
    (hidxcl : ∀ j, adjacent width height j idx → 0 ≤ d j ∧ d j ≤ D + 1) :
    BfsInv elevation seaLevel width height d q := by
  refine ⟨hmid.water0, hmid.lb, hmid.qmem, hmid.reach_of, hmid.sorted, ?_, ?_⟩
  · intro h t heq
    have hh : h ∈ q := by rw [heq]; exact List.mem_cons_self h t
    have hDh : D ≤ d h := hmid.lbq h hh
    constructor
    · intro a ha
      exact le_trans (hmid.ub a ha) (by omega)
    · intro j h0 hj
      by_cases hji : j = idx
      · rw [hji, hmid.idxd]
        exact hDh
      · exact le_trans (hmid.dq j h0 hj hji) hDh
  · intro i h0 hlt hiq j hadjj
    by_cases hi : i = idx
    · rw [hi, hmid.idxd]
      rw [hi] at hadjj
      exact hidxcl j hadjj
    · exact hmid.closed i h0 hlt hiq hi j hadjj

set_option maxHeartbeats 1600000 in
/-- Dequeuing and visiting the head of the queue preserves the BFS
invariant and decreases `queue length + undiscovered count` by one. -/
theorem bfsVisit_inv (elevation : ℕ → ℚ) (seaLevel : ℚ) (width height : ℕ)
    (dist : ℕ → ℤ) (idx : ℕ) (rest : List ℕ)
    (hinv : BfsInv elevation seaLevel width height dist (idx :: rest)) :
    BfsInv elevation seaLevel width height
      (bfsVisit width height (dist, rest) idx).1
      (bfsVisit width height (dist, rest) idx).2 ∧
    (bfsVisit width height (dist, rest) idx).2.length +
      undisc width height (bfsVisit width height (dist, rest) idx).1 + 1 =
      (idx :: rest).length + undisc width height dist := by
  obtain ⟨hidx0, hidxlt⟩ := hinv.qmem idx (List.mem_cons_self idx rest)
  have hmid0 : BfsMid elevation seaLevel width height idx (dist idx) dist rest :=
    { water0 := hinv.water0
      lb := hinv.lb
      qmem := fun i hi => hinv.qmem i (List.mem_cons_of_mem _ hi)
      reach_of := hinv.reach_of
      sorted := List.Pairwise.of_cons hinv.sorted
      lbq := (List.pairwise_cons.mp hinv.sorted).1
      ub := fun a ha => (hinv.headB idx rest rfl).1 a (List.mem_cons_of_mem _ ha)
      dq := fun j h0 hj hjne => (hinv.headB idx rest rfl).2 j h0 (by
        intro hmem
        rcases List.mem_cons.mp hmem with he | he
        · exact hjne he
        · exact hj he)
      closed := fun i h0 hlt hiq hine j hadjj => hinv.closed i h0 hlt (by
        intro hmem
        rcases List.mem_cons.mp hmem with he | he
        · exact hine he
        · exact hiq he) j hadjj
      idxd := rfl
      idxpos := hidx0
      idxlt := hidxlt }
  set D := dist idx with hD
  set s0 : (ℕ → ℤ) × List ℕ := (dist, rest) with hs0
  set s1 := if idx % width + 1 < width ∧ s0.1 (idx + 1) = -1 then
    ((fun m => if m = idx + 1 then D + 1 else s0.1 m), s0.2 ++ [idx + 1])
    else s0 with hs1
  set s2 := if 1 ≤ idx % width ∧ s1.1 (idx - 1) = -1 then
    ((fun m => if m = idx - 1 then D + 1 else s1.1 m), s1.2 ++ [idx - 1])
    else s1 with hs2
  set s3 := if idx / width + 1 < height ∧ s2.1 (idx + width) = -1 then
    ((fun m => if m = idx + width then D + 1 else s2.1 m), s2.2 ++ [idx + width])
    else s2 with hs3
  set s4 := if 1 ≤ idx / width ∧ s3.1 (idx - width) = -1 then
    ((fun m => if m = idx - width then D + 1 else s3.1 m), s3.2 ++ [idx - width])
    else s3 with hs4
  have hveq : bfsVisit width height (dist, rest) idx = s4 := rfl
  have hw := width_pos_of_lt hidxlt
  obtain ⟨hmid1, hcnt1, hchg1, hnb1⟩ := bfsStage elevation seaLevel width height
    idx D s0 (idx % width + 1 < width) (idx + 1) s1 hs1 hmid0
    (fun hc => ⟨adj_right width height idx hidxlt hc, by omega⟩)
  obtain ⟨hmid2, hcnt2, hchg2, hnb2⟩ := bfsStage elevation seaLevel width height
    idx D s1 (1 ≤ idx % width) (idx - 1) s2 hs2 hmid1
    (fun hc => ⟨adj_left width height idx hidxlt hc, by
      have := Nat.mod_le idx width
      omega⟩)
  obtain ⟨hmid3, hcnt3, hchg3, hnb3⟩ := bfsStage elevation seaLevel width height
    idx D s2 (idx / width + 1 < height) (idx + width) s3 hs3 hmid2
    (fun hc => ⟨adj_down width height idx hidxlt hc, by omega⟩)
  obtain ⟨hmid4, hcnt4, hchg4, hnb4⟩ := bfsStage elevation seaLevel width height
    idx D s3 (1 ≤ idx / width) (idx - width) s4 hs4 hmid3
    (fun hc => ⟨adj_up width height idx hidxlt hc, by
      have hwle : width ≤ idx := (Nat.one_le_div_iff hw).mp hc
      omega⟩)
  have hidxcl : ∀ j, adjacent width height j idx → 0 ≤ s4.1 j ∧ s4.1 j ≤ D + 1 := by
    intro j hadjj
    rcases adjacent_to_cases width height idx j hadjj with
      ⟨he, hc⟩ | ⟨he, hc⟩ | ⟨he, hc⟩ | ⟨he, hc⟩
    · obtain ⟨h0, hub⟩ := hnb1 hc
      have h2 : s2.1 (idx + 1) = s1.1 (idx + 1) := hchg2 _ h0
      have h3 : s3.1 (idx + 1) = s1.1 (idx + 1) := by
        rw [hchg3 _ (by rw [h2]; exact h0), h2]
      have h4 : s4.1 (idx + 1) = s1.1 (idx + 1) := by
        rw [hchg4 _ (by rw [h3]; exact h0), h3]
      rw [he, h4]
      exact ⟨h0, hub⟩
    · obtain ⟨h0, hub⟩ := hnb2 hc
      have h3 : s3.1 (idx - 1) = s2.1 (idx - 1) := hchg3 _ h0
      have h4 : s4.1 (idx - 1) = s2.1 (idx - 1) := by
        rw [hchg4 _ (by rw [h3]; exact h0), h3]
      rw [he, h4]
      exact ⟨h0, hub⟩
    · obtain ⟨h0, hub⟩ := hnb3 hc
      have h4 : s4.1 (idx + width) = s3.1 (idx + width) := hchg4 _ h0
      rw [he, h4]
      exact ⟨h0, hub⟩
    · obtain ⟨h0, hub⟩ := hnb4 hc
      rw [he]
      exact ⟨h0, hub⟩
  constructor
  · rw [hveq]
    exact bfsMid_to_inv elevation seaLevel width height idx D s4.1 s4.2 hmid4 hidxcl
  · rw [hveq]
    have hlen : (idx :: rest).length = rest.length + 1 := rfl
    have hrest : s0.2.length = rest.length := rfl
    have hd0 : undisc width height s0.1 = undisc width height dist := rfl
    omega

theorem bfsLoop_inv (elevation : ℕ → ℚ) (seaLevel : ℚ) (width height : ℕ) :
    ∀ (fuel : ℕ) (dist : ℕ → ℤ) (q : List ℕ),
    BfsInv elevation seaLevel width height dist q →
    q.length + undisc width height dist ≤ fuel →
    BfsInv elevation seaLevel width height (bfsLoop width height fuel dist q) [] := by
  intro fuel
  induction fuel with
  | zero =>
    intro dist q hinv hc
    have hq : q = [] := List.eq_nil_of_length_eq_zero (by omega)
    rw [hq] at hinv
    rw [hq]
    exact hinv
  | succ fuel ih =>
    intro dist q hinv hc
    rcases q with _ | ⟨idx, rest⟩
    · exact hinv
    · obtain ⟨hinv', hcount⟩ :=
        bfsVisit_inv elevation seaLevel width height dist idx rest hinv
      have hlen : (idx :: rest).length = rest.length + 1 := rfl
      exact ih (bfsVisit width height (dist, rest) idx).1
        (bfsVisit width height (dist, rest) idx).2 hinv' (by omega)

theorem filter_split_length {α : Type} (p : α → Bool) (l : List α) :
    (l.filter p).length + (l.filter fun a => !p a).length = l.length := by
  induction l with
  | nil => rfl
  | cons a t ih =>
    by_cases h : p a = true
    · rw [List.filter_cons_of_pos h, List.filter_cons_of_neg (by simp [h]),
        List.length_cons, List.length_cons]
      omega
    · have hb : p a = false := by revert h; cases p a <;> simp
      rw [List.filter_cons_of_neg (by simp [hb]),
        List.filter_cons_of_pos (by simp [hb]), List.length_cons, List.length_cons]
      omega

theorem bfsInit_inv (elevation : ℕ → ℚ) (seaLevel : ℚ) (width height : ℕ) :
    BfsInv elevation seaLevel width height
      (fun i => if elevation i ≤ seaLevel then 0 else -1)
      (waterSeeds elevation width height seaLevel) := by
  have hval : ∀ i, 0 ≤ (if elevation i ≤ seaLevel then (0 : ℤ) else -1) →
      elevation i ≤ seaLevel := by
    intro i h0
    by_cases hw : elevation i ≤ seaLevel
    · exact hw
    · rw [if_neg hw] at h0
      omega
  refine ⟨?_, ?_, ?_, ?_, ?_, ?_, ?_⟩
  · intro i hw
    exact if_pos hw
  · intro i
    by_cases hw : elevation i ≤ seaLevel
    · rw [if_pos hw]; omega
    · rw [if_neg hw]
  · intro i hi
    obtain ⟨hr, hp⟩ := List.mem_filter.mp hi
    have hw : elevation i ≤ seaLevel := by simpa using hp
    rw [if_pos hw]
    exact ⟨le_refl 0, List.mem_range.mp hr⟩
  · intro i h0 hlt
    have hw := hval i h0
    simp only [if_pos hw]
    exact ⟨hlt, hw⟩
  · refine pairwise_of_all _ _ ?_
    intro a ha b hb
    have hwa : elevation a ≤ seaLevel := by
      simpa using (List.mem_filter.mp ha).2
    have hwb : elevation b ≤ seaLevel := by
      simpa using (List.mem_filter.mp hb).2
    rw [if_pos hwa, if_pos hwb]
  · intro h t heq
    have hh : h ∈ waterSeeds elevation width height seaLevel := by
      rw [heq]; exact List.mem_cons_self h t
    have hwh : elevation h ≤ seaLevel := by
      simpa using (List.mem_filter.mp hh).2
    constructor
    · intro a ha
      have hwa : elevation a ≤ seaLevel := by
        simpa using (List.mem_filter.mp ha).2
      rw [if_pos hwa, if_pos hwh]
      omega
    · intro j h0 _
      have hwj := hval j h0
      rw [if_pos hwj, if_pos hwh]
  · intro i h0 hlt hiq
    exfalso
    refine hiq (List.mem_filter.mpr ⟨List.mem_range.mpr hlt, ?_⟩)
    simpa using hval i h0

theorem bfsInit_count (elevation : ℕ → ℚ) (seaLevel : ℚ) (width height : ℕ) :
    (waterSeeds elevation width height seaLevel).length +
      undisc width height (fun i => if elevation i ≤ seaLevel then 0 else -1) ≤
      width * height := by
  have hcongr : ((List.range (width * height)).filter fun i =>
      decide ((if elevation i ≤ seaLevel then (0 : ℤ) else -1) = -1)) =
      ((List.range (width * height)).filter fun i =>
        !(decide (elevation i ≤ seaLevel))) := by
    apply List.filter_congr
    intro m _
    by_cases h : elevation m ≤ seaLevel
    · simp [h]
    · simp [h]
  have hsplit := filter_split_length (fun i => decide (elevation i ≤ seaLevel))
    (List.range (width * height))
  rw [undisc]
  rw [hcongr, waterSeeds]
  rw [List.length_range] at hsplit
  omega

theorem bfs_final (elevation : ℕ → ℚ) (seaLevel : ℚ) (width height : ℕ) :
    BfsInv elevation seaLevel width height
      (bfsDistance elevation width height seaLevel) [] := by
  have hlen : (waterSeeds elevation width height seaLevel).length ≤ width * height := by
    have := List.length_filter_le (fun i => decide (elevation i ≤ seaLevel))
      (List.range (width * height))
    simpa using this
  exact bfsLoop_inv elevation seaLevel width height (width * height) _ _
    (bfsInit_inv elevation seaLevel width height)
    (bfsInit_count elevation seaLevel width height)

theorem bfs_min (elevation : ℕ → ℚ) (seaLevel : ℚ) (width height : ℕ) :
    ∀ (k : ℕ) (i : ℕ), reachesWater elevation seaLevel width height k i →
    0 ≤ bfsDistance elevation width height seaLevel i ∧
    bfsDistance elevation width height seaLevel i ≤ (k : ℤ) := by
  have hfin := bfs_final elevation seaLevel width height
  intro k
  induction k with
  | zero =>
    intro i hr
    obtain ⟨hlt, hw⟩ := hr
    rw [hfin.water0 i hw]
    exact ⟨le_refl 0, by omega⟩
  | succ k ih =>
    intro i hr
    obtain ⟨j, hadj, hrj⟩ := hr
    obtain ⟨h0j, hubj⟩ := ih j hrj
    have hjlt : j < width * height :=
      reachesWater_lt elevation seaLevel width height k j hrj
    obtain ⟨h0i, hubi⟩ := hfin.closed j h0j hjlt (List.not_mem_nil j) i hadj
    refine ⟨h0i, ?_⟩
    push_cast
    omega

theorem le_foldl_zmax (f : ℕ → ℤ) (l : List ℕ) :
    ∀ m : ℤ, m ≤ l.foldl (fun m i => if m < f i then f i else m) m := by
  induction l with
  | nil => intro m; exact le_refl m
  | cons a t ih =>
    intro m
    rw [List.foldl_cons]
    refine le_trans ?_ (ih _)
    by_cases h : m < f a
    · rw [if_pos h]; omega
    · rw [if_neg h]

theorem foldl_zmax_mem (f : ℕ → ℤ) (l : List ℕ) :
    ∀ m : ℤ, ∀ i ∈ l, f i ≤ l.foldl (fun m i => if m < f i then f i else m) m := by
  induction l with
  | nil => intro m i hi; exact absurd hi (List.not_mem_nil i)
  | cons a t ih =>
    intro m i hi
    rw [List.foldl_cons]
    rcases List.mem_cons.mp hi with rfl | hit
    · refine le_trans ?_ (le_foldl_zmax f t _)
      by_cases h : m < f i
      · rw [if_pos h]
      · rw [if_neg h]; omega
    · exact ih _ i hit

theorem maxWaterDistance_ge_one (elevation : ℕ → ℚ) (width height : ℕ)
    (seaLevel : ℚ) : 1 ≤ maxWaterDistance elevation width height seaLevel :=
  le_foldl_zmax (bfsDistance elevation width height seaLevel)
    (List.range (width * height)) 1

theorem bfsDistance_le_max (elevation : ℕ → ℚ) (width height : ℕ)
    (seaLevel : ℚ) (i : ℕ) (hi : i < width * height) :
    bfsDistance elevation width height seaLevel i ≤
      maxWaterDistance elevation width height seaLevel :=
  foldl_zmax_mem (bfsDistance elevation width height seaLevel)
    (List.range (width * height)) 1 i (List.mem_range.mpr hi)

set_option maxHeartbeats 800000 in
/-- C4: in the water-distance transform, every cell at or below sea level
has normalised distance exactly 0; every cell whose least 4-connected step
distance to water is `d` has raw BFS distance exactly `d`, bounded by the
maximum distance found, and normalised value `d / maxDistance`; and the
normalised value is monotone in the step distance, so it is non-decreasing
along any shortest path leading away from a shore. -/
theorem computeDistanceToWater_spec (elevation : ℕ → ℚ) (width height : ℕ)
    (seaLevel : ℚ) :
    (∀ i, elevation i ≤ seaLevel →
      computeDistanceToWater elevation width height seaLevel i = 0) ∧
    1 ≤ maxWaterDistance elevation width height seaLevel ∧
    (∀ i d, IsLeast {k : ℕ | reachesWater elevation seaLevel width height k i} d →
      bfsDistance elevation width height seaLevel i = (d : ℤ) ∧
      (d : ℤ) ≤ maxWaterDistance elevation width height seaLevel ∧
      computeDistanceToWater elevation width height seaLevel i =
        (d : ℚ) / ((maxWaterDistance elevation width height seaLevel : ℤ) : ℚ)) ∧
    (∀ i j di dj,
      IsLeast {k : ℕ | reachesWater elevation seaLevel width height k i} di →
      IsLeast {k : ℕ | reachesWater elevation seaLevel width height k j} dj →
      di ≤ dj →
      computeDistanceToWater elevation width height seaLevel i ≤
        computeDistanceToWater elevation width height seaLevel j) := by
  have hfin := bfs_final elevation seaLevel width height
  have hmax1 := maxWaterDistance_ge_one elevation width height seaLevel
  have hA : ∀ i, elevation i ≤ seaLevel →
      computeDistanceToWater elevation width height seaLevel i = 0 := by
    intro i hw
    simp only [computeDistanceToWater]
    rw [hfin.water0 i hw, if_pos (le_refl (0 : ℤ))]
  have hC : ∀ i d,
      IsLeast {k : ℕ | reachesWater elevation seaLevel width height k i} d →
      bfsDistance elevation width height seaLevel i = (d : ℤ) ∧
      (d : ℤ) ≤ maxWaterDistance elevation width height seaLevel ∧
      computeDistanceToWater elevation width height seaLevel i =
        (d : ℚ) / ((maxWaterDistance elevation width height seaLevel : ℤ) : ℚ) := by
    intro i d hleast
    have hd_mem : reachesWater elevation seaLevel width height d i := hleast.1
    have hi_lt : i < width * height :=
      reachesWater_lt elevation seaLevel width height d i hd_mem
    obtain ⟨h0, hub⟩ := bfs_min elevation seaLevel width height d i hd_mem
    have hreach := hfin.reach_of i h0 hi_lt
    have hlb : d ≤ (bfsDistance elevation width height seaLevel i).toNat :=
      hleast.2 hreach
    have heq : bfsDistance elevation width height seaLevel i = (d : ℤ) := by omega
    have hle_max : (d : ℤ) ≤ maxWaterDistance elevation width height seaLevel := by
      rw [← heq]
      exact bfsDistance_le_max elevation width height seaLevel i hi_lt
    refine ⟨heq, hle_max, ?_⟩
    simp only [computeDistanceToWater]
    rw [heq]
    by_cases hd0 : d = 0
    · rw [hd0]
      norm_num
    · rw [if_neg (by exact_mod_cast (by omega : ¬ (d : ℤ) ≤ 0))]
      push_cast
      rfl
  refine ⟨hA, hmax1, hC, ?_⟩
  intro i j di dj hi hj hle
  obtain ⟨_, _, hfi⟩ := hC i di hi
  obtain ⟨_, _, hfj⟩ := hC j dj hj
  rw [hfi, hfj]
  have hcpos : (0 : ℚ) <
      ((maxWaterDistance elevation width height seaLevel : ℤ) : ℚ) := by
    exact_mod_cast lt_of_lt_of_le one_pos hmax1
  exact (div_le_div_iff_of_pos_right hcpos).mpr (by exact_mod_cast hle)

theorem computeDistanceToWater_spec_witness :
    computeDistanceToWater (fun _ => 0) 1 1 0 0 = 0 ∧
    (1 : ℤ) ≤ maxWaterDistance (fun _ => 0) 1 1 0 ∧
    bfsDistance (fun _ => 0) 1 1 0 0 = ((0 : ℕ) : ℤ) ∧
    computeDistanceToWater (fun _ => 0) 1 1 0 0 =
      (((0 : ℕ) : ℚ)) / ((maxWaterDistance (fun _ => 0) 1 1 0 : ℤ) : ℚ) ∧
    computeDistanceToWater (fun _ => 0) 1 1 0 0 ≤
      computeDistanceToWater (fun _ => 0) 1 1 0 0 := by
  have hleast : IsLeast
      {k : ℕ | reachesWater (fun _ => 0) 0 1 1 k 0} 0 :=
    ⟨⟨by norm_num, le_refl 0⟩, fun k _ => Nat.zero_le k⟩
  have H := computeDistanceToWater_spec (fun _ => 0) 1 1 0
  exact ⟨H.1 0 (le_refl 0), H.2.1, (H.2.2.1 0 0 hleast).1,
    (H.2.2.1 0 0 hleast).2.2, H.2.2.2 0 0 0 0 hleast hleast (le_refl 0)⟩
